import Mathlib

/-!
# TaskSpec orchestrator: embedding of `state-scripts/taskspec_orchestrator.go`

The program is a sequential workflow driver.  Everything it does to the outside
(terminal output, reads from the operator, external `git` commands, file
operations) is recorded, in order, as an `Event` of a trace; what the outside
answers is supplied by a `World`, indexed by the logical time of the request
(the number of events before it), so that any sequence of answers can be
supplied.  A Go `error` is modelled by its message, `none` standing for `nil`.

Conventions of the embedding:

* a function of the program that acts on the outside takes the trace so far and
  returns the extended trace; a method of `Orchestrator` takes the run state and
  returns a `Res` (error, run state, trace);
* the output helpers `printStatus`, `printSuccess`, `printError`,
  `printWarning`, `printPhase` are events carrying their argument (colours and
  the time stamp of `printStatus` are presentation); direct `fmt.Printf`,
  `fmt.Print`, `fmt.Println` calls are `Event.print` with the text written;
* Go strings are Lean strings, `int` is `Int`, `fmt.Sprintf` is concatenation
  with `%d` rendered by `fmtInt`;
* `yaml.Unmarshal` and `filepath.Join` on the TaskSpec identifier are left to the
  `World`.

The file has three parts: the program, the predicates on traces with the
concrete inputs, and the theorems.
-/

namespace TaskspecOrchestrator

/-! ## Constants -/

def ColorRed : String := "\x1b[0;31m"
def ColorGreen : String := "\x1b[0;32m"
def ColorYellow : String := "\x1b[1;33m"
def ColorBlue : String := "\x1b[0;34m"
def ColorCyan : String := "\x1b[0;36m"
def ColorReset : String := "\x1b[0m"

def ProjectRoot : String := "/home/lama/projects/djhatch"
def StateRoot : String := "/home/lama/projects/djhatch-state"
def TaskSpecDir : String := "/home/lama/projects/djhatch-state/_specs/taskspecs"
def FeatStateDir : String := "/home/lama/projects/djhatch-state/_featstate"
def TempDir : String := "/home/lama/projects/djhatch-state/_tmp"

/-! ## Data model -/

/-- TaskSpec record, as deserialised from the YAML file. -/
structure TaskSpec where
  ID : String
  Title : String
  ParentFeatSpec : String
  Type_ : String
  LocCap : Int
  CoverageCap : Int
  DependsOn : List String
  deriving DecidableEq

/-- Phases of the orchestration, in the order of the `iota` block. -/
inductive WorkflowPhase where
  | PhaseFactory
  | PhaseQA
  | PhaseMerge
  | PhaseRework
  deriving DecidableEq

open WorkflowPhase

/-- Mutable run state of one workflow invocation. -/
structure Orchestrator where
  TaskSpecID : String
  TaskSpec : TaskSpec
  TaskSpecFile : String
  FactoryWorktree : String
  QAWorktree : String
  CurrentPhase : WorkflowPhase
  deriving DecidableEq

/-- Observable actions of the program, in the order they happen.  Requests to
the outside carry the answer they received. -/
inductive Event where
  | printPhase (phase : String)
  | printStatus (msg : String)
  | printSuccess (msg : String)
  | printError (msg : String)
  | printWarning (msg : String)
  | print (text : String)
  | readString (response : String) (err : Option String)
  | scanln (choice : Int) (err : Option String)
  | run (argv : List String) (err : Option String)
  | runOutput (argv : List String) (output : String) (err : Option String)
  | readFile (path : String) (data : String) (err : Option String)
  | mkdirAll (path : String) (err : Option String)
  | writeFile (path : String) (data : String) (err : Option String)
  deriving DecidableEq

/-- Answers of the environment.  The first argument of every field is the
logical time of the request: the number of events that precede it. -/
structure World where
  readString : Nat → String × Option String
  scanln : Nat → Int × Option String
  command : Nat → List String → Option String
  commandOutput : Nat → List String → String × Option String
  readFile : Nat → String → String × Option String
  mkdirAll : Nat → String → Option String
  writeFile : Nat → String → String → Option String
  yamlUnmarshal : String → Except String TaskSpec
  filepathJoin : String → String → String

/-- Result of a phase handler: the returned error, the run state and the trace. -/
structure Res where
  err : Option String
  o : Orchestrator
  trace : List Event
  deriving DecidableEq

/-! ## Strings -/

/-- White space in the sense of Go's `unicode.IsSpace`. -/
def isSpace (c : Char) : Bool :=
  let n := c.toNat
  n = 0x09 || n = 0x0A || n = 0x0B || n = 0x0C || n = 0x0D || n = 0x20 ||
  n = 0x85 || n = 0xA0 || n = 0x1680 || (0x2000 ≤ n && n ≤ 0x200A) ||
  n = 0x2028 || n = 0x2029 || n = 0x202F || n = 0x205F || n = 0x3000

/-- Go's `strings.TrimSpace`: leading and trailing white space removed. -/
def TrimSpace (s : String) : String :=
  ⟨((s.data.dropWhile isSpace).reverse.dropWhile isSpace).reverse⟩

/-- The string `sub` occurs in `s` as a contiguous run of characters
(Go's `strings.Contains`). -/
def Contains (s sub : String) : Prop := sub.data <:+: s.data

instance (s sub : String) : Decidable (Contains s sub) := by
  unfold Contains; infer_instance

/-- Decimal rendering of an integer, the `%d` verb of `fmt`. -/
def fmtInt (n : Int) : String := toString n

/-! ## Operator channel -/

/-- Go function `waitForUser`: prompt, read one line, fail on a read error or
on the answer `abort`. -/
def waitForUser (W : World) (prompt : String) (tr : List Event) :
    Option String × List Event :=
  let tr1 := tr ++ [Event.print (ColorYellow ++ prompt ++ ColorReset ++ "\n"),
    Event.print "Press ENTER to continue, or type 'abort' to cancel: "]
  let r := W.readString tr1.length
  let tr2 := tr1 ++ [Event.readString r.1 r.2]
  match r.2 with
  | some e => (some e, tr2)
  | none =>
    if TrimSpace r.1 = "abort" then (some "operation aborted by user", tr2)
    else (none, tr2)

/-- Go function `getUserChoice`: print the menu and scan one integer. -/
def getUserChoice (W : World) (prompt : String) (tr : List Event) :
    (Int × Option String) × List Event :=
  let tr1 := tr ++ [Event.print (ColorYellow ++ prompt ++ ColorReset ++ "\n"),
    Event.print "  1) Continue to next phase\n",
    Event.print "  2) Mark as complete and ready to merge\n",
    Event.print "  3) Send back to factory for rework\n",
    Event.print "  4) Abort workflow\n",
    Event.print "Enter choice [1-4]: "]
  let r := W.scanln tr1.length
  (r, tr1 ++ [Event.scanln r.1 r.2])

/-! ## Version-control adapter -/

/-- Go function `runCommand`: run an external command, return its error. -/
def runCommand (W : World) (argv : List String) (tr : List Event) :
    Option String × List Event :=
  let r := W.command tr.length argv
  (r, tr ++ [Event.run argv r])

/-- Go function `runCommandOutput`: run an external command, return its
standard output and its error. -/
def runCommandOutput (W : World) (argv : List String) (tr : List Event) :
    (String × Option String) × List Event :=
  let r := W.commandOutput tr.length argv
  (r, tr ++ [Event.runOutput argv r.1 r.2])

/-! ## File operations -/

/-- Library call `ioutil.ReadFile`: the content of a file and the error. -/
def readFile (W : World) (path : String) (tr : List Event) :
    (String × Option String) × List Event :=
  let r := W.readFile tr.length path
  (r, tr ++ [Event.readFile path r.1 r.2])

/-- Library call `os.MkdirAll`. -/
def mkdirAll (W : World) (path : String) (tr : List Event) :
    Option String × List Event :=
  let r := W.mkdirAll tr.length path
  (r, tr ++ [Event.mkdirAll path r])

/-- Library call `ioutil.WriteFile`. -/
def writeFile (W : World) (path data : String) (tr : List Event) :
    Option String × List Event :=
  let r := W.writeFile tr.length path data
  (r, tr ++ [Event.writeFile path data r])

/-- Go function `createWorktree`: create a git worktree on a new branch based on
`main`, after forcibly removing a worktree already listed at that path. -/
def createWorktree (W : World) (branchName worktreePath : String)
    (tr : List Event) : Option String × List Event :=
  let tr := tr ++ [Event.printStatus ("Creating worktree: " ++ worktreePath)]
  let out := runCommandOutput W ["git", "-C", ProjectRoot, "worktree", "list"] tr
  let tr := out.2
  let tr :=
    if Contains out.1.1 worktreePath then
      (runCommand W ["git", "-C", ProjectRoot, "worktree", "remove", "--force",
        worktreePath]
        (tr ++ [Event.printWarning "Worktree already exists, removing it first"])).2
    else tr
  match runCommand W ["git", "-C", ProjectRoot, "worktree", "add", "-b",
      branchName, worktreePath, "main"] tr with
  | (some err, tr) => (some ("failed to create worktree: " ++ err), tr)
  | (none, tr) =>
    (none, tr ++ [Event.printSuccess ("Worktree created: " ++ worktreePath)])

/-! ## Instruction composer -/

/-- The factory instruction document, the `instructions` of `PrepareFactory`. -/
def factoryInstructions (o : Orchestrator) : String :=
  "# Factory Agent Instructions for " ++ o.TaskSpecID ++ "\n" ++
  "\n" ++
  "## Your Task\n" ++
  "Implement the requirements specified in TaskSpec: " ++ o.TaskSpecID ++ "\n" ++
  "\n" ++
  "## TaskSpec Location\n" ++
  o.TaskSpecFile ++ "\n" ++
  "\n" ++
  "## Working Directory\n" ++
  o.FactoryWorktree ++ "\n" ++
  "\n" ++
  "## Key Requirements\n" ++
  "- Title: " ++ o.TaskSpec.Title ++ "\n" ++
  "- Type: " ++ o.TaskSpec.Type_ ++ "\n" ++
  "- LOC Cap: " ++ fmtInt o.TaskSpec.LocCap ++ " lines\n" ++
  "- Follow TDD workflow (RED → GREEN → REFACTOR)\n" ++
  "\n" ++
  "## Workflow\n" ++
  "1. Read the TaskSpec thoroughly\n" ++
  "2. Write failing tests first (RED phase)\n" ++
  "3. Implement minimal code to pass tests (GREEN phase)\n" ++
  "4. Refactor and optimize (REFACTOR phase)\n" ++
  "5. Ensure all acceptance criteria are met\n" ++
  "6. Stay within LOC cap of " ++ fmtInt o.TaskSpec.LocCap ++ " lines\n" ++
  "\n" ++
  "## On Completion\n" ++
  "- All tests must pass\n" ++
  "- Code must be properly formatted\n" ++
  "- Commit with message: \"feat: implement " ++ o.TaskSpecID ++ "\"\n" ++
  "- Update TaskSpec status to 'qa' in commit trailer\n"

/-- The review instruction document, the `instructions` of `PrepareQA`. -/
def qaInstructions (o : Orchestrator) : String :=
  "# QA Agent Instructions for " ++ o.TaskSpecID ++ "\n" ++
  "\n" ++
  "## Your Task\n" ++
  "Review and validate the implementation of TaskSpec: " ++ o.TaskSpecID ++ "\n" ++
  "\n" ++
  "## Locations\n" ++
  "- TaskSpec: " ++ o.TaskSpecFile ++ "\n" ++
  "- Implementation: " ++ o.QAWorktree ++ "\n" ++
  "- Factory work: " ++ o.FactoryWorktree ++ "\n" ++
  "\n" ++
  "## QA Checklist\n" ++
  "1. Verify all acceptance criteria are met\n" ++
  "2. Check test coverage meets requirements (>= " ++
    fmtInt o.TaskSpec.CoverageCap ++ "%)\n" ++
  "3. Validate LOC cap compliance (<= " ++ fmtInt o.TaskSpec.LocCap ++ " lines)\n" ++
  "4. Review code quality and style\n" ++
  "5. Ensure TDD workflow was followed\n" ++
  "6. Check for any security issues\n" ++
  "7. Verify integration with parent FeatSpec\n" ++
  "\n" ++
  "## Decision Points\n" ++
  "- If all checks pass → Approve for merge\n" ++
  "- If minor issues → Fix in QA branch\n" ++
  "- If major issues → Send back to factory\n" ++
  "\n" ++
  "## On Completion\n" ++
  "- Document findings in QA report\n" ++
  "- Update TaskSpec status accordingly\n" ++
  "- Prepare merge if approved\n"

/-- The integration commit message, the `mergeMessage` of `PrepareMerge`. -/
def mergeMessage (o : Orchestrator) : String :=
  "merge: complete " ++ o.TaskSpecID ++ "\n" ++
  "\n" ++
  "TaskSpec " ++ o.TaskSpecID ++ " has passed QA review and is ready for merge.\n" ++
  "\n" ++
  "TaskSpec: " ++ o.TaskSpecID ++ " status=done"

/-! ## Phase handlers -/

/-- Go method `Orchestrator.PrepareFactory`.  The two `filepath.Join` calls of
the program on `TempDir` have constant, already clean arguments, so their
results are written out. -/
def PrepareFactory (W : World) (o : Orchestrator) (tr : List Event) : Res :=
  let tr := tr ++ [Event.printPhase "PHASE 1: FACTORY PREPARATION",
    Event.printStatus ("TaskSpec: " ++ o.TaskSpecID),
    Event.printStatus ("Title: " ++ o.TaskSpec.Title),
    Event.printStatus ("Parent FeatSpec: " ++ o.TaskSpec.ParentFeatSpec),
    Event.printStatus ("Type: " ++ o.TaskSpec.Type_),
    Event.printStatus ("LOC Cap: " ++ fmtInt o.TaskSpec.LocCap)]
  let factoryBranch := "factory/" ++ o.TaskSpecID
  let o := { o with
    FactoryWorktree := ProjectRoot ++ "/../worktrees/factory-" ++ o.TaskSpecID }
  match createWorktree W factoryBranch o.FactoryWorktree tr with
  | (some err, tr) => ⟨some err, o, tr⟩
  | (none, tr) =>
    let instructions := factoryInstructions o
    let instructionsFile := TempDir ++ "/factory_instructions.md"
    match mkdirAll W TempDir tr with
    | (some err, tr) => ⟨some err, o, tr⟩
    | (none, tr) =>
      match writeFile W instructionsFile instructions tr with
      | (some err, tr) => ⟨some err, o, tr⟩
      | (none, tr) =>
        ⟨none, o, tr ++ [Event.printSuccess
          ("Factory instructions created: " ++ instructionsFile)]⟩

/-- Go method `Orchestrator.RunFactory`. -/
def RunFactory (W : World) (o : Orchestrator) (tr : List Event) : Res :=
  let tr := tr ++ [Event.printPhase "PHASE 2: FACTORY EXECUTION",
    Event.printStatus ("Starting factory agent for " ++ o.TaskSpecID),
    Event.printStatus ("Working directory: " ++ o.FactoryWorktree),
    Event.print (ColorCyan ++ "Factory Agent Instructions:" ++ ColorReset ++ "\n")]
  let f := readFile W (TempDir ++ "/factory_instructions.md") tr
  let tr := f.2 ++ [Event.print (f.1.1 ++ "\n")]
  match waitForUser W "Ready to start factory agent?" tr with
  | (some err, tr) => ⟨some err, o, tr⟩
  | (none, tr) =>
    let tr := tr ++ [Event.printWarning "Factory agent should now be running...",
      Event.printWarning ("Monitor progress in: " ++ o.FactoryWorktree)]
    match waitForUser W "Has the factory agent completed its work?" tr with
    | (some err, tr) => ⟨some err, o, tr⟩
    | (none, tr) =>
      let out := runCommandOutput W
        ["git", "-C", o.FactoryWorktree, "diff", "--stat", "HEAD"] tr
      let tr := out.2
      if out.1.1 ≠ "" then
        match waitForUser W "Please commit changes before continuing"
            (tr ++ [Event.printWarning "Uncommitted changes detected"]) with
        | (some err, tr) => ⟨some err, o, tr⟩
        | (none, tr) =>
          ⟨none, { o with CurrentPhase := PhaseQA },
            tr ++ [Event.printSuccess "Factory phase complete"]⟩
      else
        ⟨none, { o with CurrentPhase := PhaseQA },
          tr ++ [Event.printSuccess "Factory phase complete"]⟩

/-- Go method `Orchestrator.PrepareQA`. -/
def PrepareQA (W : World) (o : Orchestrator) (tr : List Event) : Res :=
  let tr := tr ++ [Event.printPhase "PHASE 3: QA PREPARATION"]
  match runCommandOutput W
      ["git", "-C", o.FactoryWorktree, "branch", "--show-current"] tr with
  | ((_, some err), tr) => ⟨some err, o, tr⟩
  | ((factoryBranch, none), tr) =>
    let factoryBranch := TrimSpace factoryBranch
    let qaBranch := "qa/" ++ o.TaskSpecID
    let o := { o with
      QAWorktree := ProjectRoot ++ "/../worktrees/qa-" ++ o.TaskSpecID }
    match runCommand W ["git", "-C", ProjectRoot, "worktree", "add", "-b",
        qaBranch, o.QAWorktree, factoryBranch] tr with
    | (some err, tr) => ⟨some err, o, tr⟩
    | (none, tr) =>
      let tr := tr ++ [Event.printSuccess "QA worktree created from factory branch"]
      let instructions := qaInstructions o
      let instructionsFile := TempDir ++ "/qa_instructions.md"
      match writeFile W instructionsFile instructions tr with
      | (some err, tr) => ⟨some err, o, tr⟩
      | (none, tr) =>
        ⟨none, o, tr ++ [Event.printSuccess
          ("QA instructions created: " ++ instructionsFile)]⟩

/-- Go method `Orchestrator.RunQA`. -/
def RunQA (W : World) (o : Orchestrator) (tr : List Event) : Res :=
  let tr := tr ++ [Event.printPhase "PHASE 4: QA EXECUTION",
    Event.printStatus ("Starting QA agent for " ++ o.TaskSpecID),
    Event.printStatus ("Working directory: " ++ o.QAWorktree),
    Event.print (ColorCyan ++ "QA Agent Instructions:" ++ ColorReset ++ "\n")]
  let f := readFile W (TempDir ++ "/qa_instructions.md") tr
  let tr := f.2 ++ [Event.print (f.1.1 ++ "\n")]
  match waitForUser W "Ready to start QA agent?" tr with
  | (some err, tr) => ⟨some err, o, tr⟩
  | (none, tr) =>
    let tr := tr ++ [Event.printWarning "QA agent should now be running...",
      Event.printWarning ("Monitor progress in: " ++ o.QAWorktree)]
    match waitForUser W "Has the QA agent completed its review?" tr with
    | (some err, tr) => ⟨some err, o, tr⟩
    | (none, tr) =>
      match getUserChoice W "QA Review Complete. What's the verdict?" tr with
      | ((_, some err), tr) => ⟨some err, o, tr⟩
      | ((choice, none), tr) =>
        if choice = 2 then
          ⟨none, { o with CurrentPhase := PhaseMerge },
            tr ++ [Event.printSuccess "QA PASSED - Ready for merge"]⟩
        else if choice = 3 then
          ⟨some "rework required", { o with CurrentPhase := PhaseRework },
            tr ++ [Event.printWarning "QA FAILED - Sending back to factory"]⟩
        else if choice = 4 then
          ⟨some "workflow aborted", o, tr⟩
        else
          ⟨none, { o with CurrentPhase := PhaseMerge }, tr⟩

/-- Go method `Orchestrator.PrepareMerge`. -/
def PrepareMerge (W : World) (o : Orchestrator) (tr : List Event) : Res :=
  let tr := tr ++ [Event.printPhase "PHASE 5: MERGE PREPARATION"]
  let mergeMsg := mergeMessage o
  let tr := tr ++ [Event.printStatus "Preparing merge to main branch"]
  let out := runCommandOutput W
    ["git", "-C", o.QAWorktree, "log", "--oneline", "main..HEAD"] tr
  let tr := out.2 ++ [Event.print "Changes to be merged:\n",
    Event.print (out.1.1 ++ "\n")]
  match waitForUser W "Ready to merge to main?" tr with
  | (some err, tr) => ⟨some err, o, tr⟩
  | (none, tr) =>
    match runCommand W ["git", "-C", ProjectRoot, "checkout", "main"] tr with
    | (some err, tr) => ⟨some err, o, tr⟩
    | (none, tr) =>
      let qaBranch := "qa/" ++ o.TaskSpecID
      match runCommand W ["git", "-C", ProjectRoot, "merge", "--no-ff", "-m",
          mergeMsg, qaBranch] tr with
      | (some err, tr) => ⟨some err, o, tr⟩
      | (none, tr) =>
        let tr := tr ++ [Event.printSuccess "Merged to main successfully"]
        match waitForUser W "Ready to cleanup worktrees?" tr with
        | (some err, tr) => ⟨some err, o, tr⟩
        | (none, tr) =>
          let tr := (runCommand W
            ["git", "-C", ProjectRoot, "worktree", "remove", o.FactoryWorktree] tr).2
          let tr := (runCommand W
            ["git", "-C", ProjectRoot, "worktree", "remove", o.QAWorktree] tr).2
          ⟨none, o, tr ++ [Event.printSuccess "Cleanup complete"]⟩

/-- Go method `Orchestrator.Run`: the complete workflow. -/
def Run (W : World) (o : Orchestrator) (tr : List Event) : Res :=
  let tr := tr ++ [Event.printPhase "TASKSPEC ORCHESTRATOR",
    Event.printStatus ("Starting workflow for: " ++ o.TaskSpecID)]
  let r := PrepareFactory W o tr
  match r.err with
  | some err => ⟨some err, r.o, r.trace⟩
  | none =>
    let r := RunFactory W r.o r.trace
    match r.err with
    | some err => ⟨some err, r.o, r.trace⟩
    | none =>
      let r := PrepareQA W r.o r.trace
      match r.err with
      | some err => ⟨some err, r.o, r.trace⟩
      | none =>
        let r := RunQA W r.o r.trace
        match r.err with
        | some err =>
          if r.o.CurrentPhase = PhaseRework then
            ⟨none, r.o, r.trace ++ [Event.printPhase "REWORK REQUIRED",
              Event.printWarning
                ("TaskSpec " ++ r.o.TaskSpecID ++ " needs factory rework"),
              Event.printStatus ("Factory worktree: " ++ r.o.FactoryWorktree),
              Event.printStatus ("QA feedback available in: " ++ r.o.QAWorktree),
              Event.printStatus
                "Re-run this program after factory fixes are complete"]⟩
          else ⟨some err, r.o, r.trace⟩
        | none =>
          let r := PrepareMerge W r.o r.trace
          match r.err with
          | some err => ⟨some err, r.o, r.trace⟩
          | none =>
            ⟨none, r.o, r.trace ++ [Event.printPhase "WORKFLOW COMPLETE",
              Event.printSuccess ("TaskSpec " ++ r.o.TaskSpecID ++
                " has been successfully implemented and merged!")]⟩

/-- Go function `LoadTaskSpec`: read and parse the TaskSpec file. -/
def LoadTaskSpec (W : World) (taskSpecID : String) (tr : List Event) :
    Except String (TaskSpec × String) × List Event :=
  let taskSpecFile := W.filepathJoin TaskSpecDir (taskSpecID ++ ".yaml")
  match readFile W taskSpecFile tr with
  | ((_, some err), tr) =>
    (Except.error ("failed to read TaskSpec file: " ++ err), tr)
  | ((data, none), tr) =>
    match W.yamlUnmarshal data with
    | Except.error err => (Except.error ("failed to parse TaskSpec YAML: " ++ err), tr)
    | Except.ok taskSpec => (Except.ok (taskSpec, taskSpecFile), tr)

/-- Go function `main`, on the argument vector `args` (`os.Args`): the exit
code of the process and the trace. -/
def main (W : World) (args : List String) : Nat × List Event :=
  match args with
  | _ :: taskSpecID :: _ =>
    match LoadTaskSpec W taskSpecID [] with
    | (Except.error err, tr) =>
      (1, tr ++ [Event.printError ("Failed to load TaskSpec: " ++ err)])
    | (Except.ok (taskSpec, taskSpecFile), tr) =>
      let orchestrator : Orchestrator :=
        { TaskSpecID := taskSpecID, TaskSpec := taskSpec,
          TaskSpecFile := taskSpecFile, FactoryWorktree := "", QAWorktree := "",
          CurrentPhase := PhaseFactory }
      let r := Run W orchestrator tr
      match r.err with
      | some err => (1, r.trace ++ [Event.printError ("Workflow failed: " ++ err)])
      | none => (0, r.trace)
  | _ =>
    (1, [Event.printError "Usage: taskspec_orchestrator <TASKSPEC_ID>",
      Event.printError
        "Example: taskspec_orchestrator 001-TS-2025-08-19-AUTH-MIDDLEWARE"])


/-! ## Trace predicates -/

/-- The argument vector is a `git -C <dir> worktree add ...`. -/
def isAdd (argv : List String) : Prop := (argv.drop 3).take 2 = ["worktree", "add"]

instance : DecidablePred isAdd := fun argv =>
  inferInstanceAs (Decidable ((argv.drop 3).take 2 = ["worktree", "add"]))

/-- The argument vector is a `git -C <dir> worktree remove ...`. -/
def isRemove (argv : List String) : Prop := (argv.drop 3).take 2 = ["worktree", "remove"]

instance : DecidablePred isRemove := fun argv =>
  inferInstanceAs (Decidable ((argv.drop 3).take 2 = ["worktree", "remove"]))

/-- The argument vector is a `git -C <dir> checkout ...`. -/
def isCheckout (argv : List String) : Prop := (argv.drop 3).take 1 = ["checkout"]

instance : DecidablePred isCheckout := fun argv =>
  inferInstanceAs (Decidable ((argv.drop 3).take 1 = ["checkout"]))

/-- The argument vector is a `git -C <dir> merge ...`. -/
def isMerge (argv : List String) : Prop := (argv.drop 3).take 1 = ["merge"]

instance : DecidablePred isMerge := fun argv =>
  inferInstanceAs (Decidable ((argv.drop 3).take 1 = ["merge"]))

/-- The event is an external (version-control) command. -/
def Event.isCommand : Event → Bool
  | Event.run _ _ => true
  | Event.runOutput _ _ _ => true
  | _ => false

/-- The event is a confirmation checkpoint: a line read by `waitForUser`. -/
def Event.isRead : Event → Bool
  | Event.readString _ _ => true
  | _ => false

/-- The event is a `worktree add` that succeeded: a working copy was created. -/
def Event.isCreated : Event → Bool
  | Event.run argv none => decide (isAdd argv)
  | _ => false

/-- Events on which the program returns an error at once: a failed read or scan,
the answers `abort` and 4, a failed command other than a worktree removal, a
failed query of the current branch, a failed file write. -/
def fatal : Event → Prop
  | Event.readString resp err => err ≠ none ∨ TrimSpace resp = "abort"
  | Event.scanln c err => err ≠ none ∨ c = 4
  | Event.run argv err => err ≠ none ∧ ¬ isRemove argv
  | Event.runOutput argv _ err => err ≠ none ∧ (argv.drop 3).take 1 = ["branch"]
  | Event.mkdirAll _ err => err ≠ none
  | Event.writeFile _ _ err => err ≠ none
  | _ => False

/-- The error returned after a fatal event: the abort message after the answer
`abort`, some error otherwise. -/
def Reports : Event → Option String → Prop
  | Event.readString _ none, err => err = some "operation aborted by user"
  | _, err => err ≠ none

/-- Events after which the program goes on.  `ps` lists the pairs of branch and
path a successful `worktree add` may name, `integ` tells whether checkout and
merge may occur. -/
def Plain (ps : List (String × String)) (integ : Bool) : Event → Prop
  | Event.readString resp err => err = none ∧ TrimSpace resp ≠ "abort"
  | Event.scanln c err => err = none ∧ c ≠ 3 ∧ c ≠ 4
  | Event.run argv err => (err = none ∨ isRemove argv) ∧
      (integ = false → ¬ isCheckout argv ∧ ¬ isMerge argv) ∧
      (isAdd argv → ∃ p ∈ ps, argv.get? 6 = some p.1 ∧ argv.get? 7 = some p.2 ∧ p.2 ≠ "")
  | Event.runOutput argv _ err => err = none ∨ (argv.drop 3).take 1 ≠ ["branch"]
  | Event.mkdirAll _ err => err = none
  | Event.writeFile _ _ err => err = none
  | Event.printPhase p => p ≠ "REWORK REQUIRED"
  | _ => True

/-- Every event is plain. -/
def AllPlain (ps : List (String × String)) (integ : Bool) : List Event → Prop
  | [] => True
  | e :: l => Plain ps integ e ∧ AllPlain ps integ l

/-- The events are plain up to the last one, which is fatal and accounts for
the error `err`. -/
def Stops (ps : List (String × String)) (integ : Bool) (err : Option String) : List Event → Prop
  | [] => False
  | [e] => fatal e ∧ Reports e err
  | e :: l => Plain ps integ e ∧ Stops ps integ err l

/-- The events are plain up to the decision 3 (reject for rework), which is
followed by exactly `tail`. -/
def ReworkAt (ps : List (String × String)) (tail : List Event) : List Event → Prop
  | [] => False
  | e :: l => (e = Event.scanln 3 none ∧ l = tail) ∨ (Plain ps false e ∧ ReworkAt ps tail l)

/-- No confirmation checkpoint occurs before the first occurrence of `a`. -/
def Guarded (a : Event) : List Event → Prop
  | [] => True
  | e :: l => e = a ∨ (¬ e.isRead ∧ Guarded a l)

/-- The event is a worktree removal that failed. -/
def removalFailed : Event → Prop
  | Event.run argv (some _) => isRemove argv
  | _ => False

/-- Every failed worktree removal is followed by a further command. -/
def Settled : List Event → Prop
  | [] => True
  | e :: l => (removalFailed e → ∃ x ∈ l, x.isCommand = true) ∧ Settled l

/-- Events appended to the trace `tr` by a handler that returned `r`. -/
def Res.since (r : Res) (tr : List Event) : List Event := r.trace.drop tr.length

/-- Outcome of a handler started on the trace `tr`: it only extends the trace,
and either returns no error after plain events, or stops on a fatal event. -/
def Res.Good (ps : List (String × String)) (integ : Bool) (tr : List Event) (r : Res) : Prop :=
  tr <+: r.trace ∧
  ((r.err = none ∧ AllPlain ps integ (r.since tr)) ∨ Stops ps integ r.err (r.since tr))

/-- Argument vector of the creation of the factory working copy. -/
def addFactory (id : String) : List String :=
  ["git", "-C", ProjectRoot, "worktree", "add", "-b", "factory/" ++ id,
    ProjectRoot ++ "/../worktrees/factory-" ++ id, "main"]


/-- What follows the decision 3 in a run: the warning of `RunQA` and the report
printed by `Run` on the rework exit. -/
def reworkReport (o : Orchestrator) : List Event :=
  [Event.printWarning "QA FAILED - Sending back to factory",
    Event.printPhase "REWORK REQUIRED",
    Event.printWarning ("TaskSpec " ++ o.TaskSpecID ++ " needs factory rework"),
    Event.printStatus ("Factory worktree: " ++ o.FactoryWorktree),
    Event.printStatus ("QA feedback available in: " ++ o.QAWorktree),
    Event.printStatus "Re-run this program after factory fixes are complete"]

/-- Outcome of a whole run started on the trace `tr`: completed, stopped on a
fatal event, or left by the rework exit; the creation of the factory working
copy precedes every confirmation checkpoint. -/
def Res.RunGood (o : Orchestrator) (tr : List Event) (r : Res) : Prop :=
  tr <+: r.trace ∧
  r.o.TaskSpecID = o.TaskSpecID ∧
  r.o.FactoryWorktree = ProjectRoot ++ "/../worktrees/factory-" ++ o.TaskSpecID ∧
  ((r.err = none ∧ r.o.CurrentPhase = PhaseMerge ∧
      AllPlain [("factory/" ++ o.TaskSpecID, r.o.FactoryWorktree),
        ("qa/" ++ o.TaskSpecID, r.o.QAWorktree)] true (r.since tr) ∧
      ∃ l, r.since tr = l ++ [Event.printPhase "WORKFLOW COMPLETE",
        Event.printSuccess ("TaskSpec " ++ r.o.TaskSpecID ++
          " has been successfully implemented and merged!")]) ∨
    Stops [("factory/" ++ o.TaskSpecID, r.o.FactoryWorktree),
        ("qa/" ++ o.TaskSpecID, r.o.QAWorktree)] true r.err (r.since tr) ∨
    (r.err = none ∧ r.o.CurrentPhase = PhaseRework ∧
      ReworkAt [("factory/" ++ o.TaskSpecID, r.o.FactoryWorktree),
        ("qa/" ++ o.TaskSpecID, r.o.QAWorktree)] (reworkReport r.o) (r.since tr))) ∧
  Guarded (Event.run (addFactory o.TaskSpecID) none) (r.since tr)

/-! ## Concrete inputs -/

/-- The TaskSpec `T1` of the scenarios: LOC cap 200, coverage cap 80. -/
def taskT1 : TaskSpec :=
  { ID := "T1", Title := "Example task", ParentFeatSpec := "F1", Type_ := "feature",
    LocCap := 200, CoverageCap := 80, DependsOn := [] }

/-- The run state `main` builds for `T1`. -/
def orchT1 : Orchestrator :=
  { TaskSpecID := "T1", TaskSpec := taskT1, TaskSpecFile := TaskSpecDir ++ "/T1.yaml",
    FactoryWorktree := "", QAWorktree := "", CurrentPhase := PhaseFactory }

/-- A cooperative environment: every command and file operation succeeds, no
worktree is listed, nothing is uncommitted, the factory copy reports the branch
`factory/T1`, the operator presses ENTER at every checkpoint and enters
`choice` at the decision. -/
def worldOk (choice : Int) : World :=
  { readString := fun _ => ("\n", none)
    scanln := fun _ => (choice, none)
    command := fun _ _ => none
    commandOutput := fun _ argv =>
      if (argv.drop 3).take 1 = ["branch"] then ("factory/T1\n", none) else ("", none)
    readFile := fun _ _ => ("", none)
    mkdirAll := fun _ _ => none
    writeFile := fun _ _ _ => none
    yamlUnmarshal := fun _ => Except.ok taskT1
    filepathJoin := fun dir file => dir ++ "/" ++ file }

/-- The operator answers `abort` at every checkpoint, hence at the first. -/
def worldAbort : World :=
  { worldOk 2 with readString := fun _ => ("abort\n", none) }

/-- The operator answers `abort` at the request made at logical time `t` only. -/
def worldAbortAt (t : Nat) : World :=
  { worldOk 2 with readString := fun n => if n = t then (" abort\n", none) else ("\n", none) }

/-- Every `worktree add` fails. -/
def worldAddFails : World :=
  { worldOk 2 with
    command := fun _ argv => if isAdd argv then some "exit status 128" else none }

/-- Every `worktree remove` fails. -/
def worldRemoveFails : World :=
  { worldOk 2 with
    command := fun _ argv => if isRemove argv then some "exit status 128" else none }

/-- The query of the current branch fails. -/
def worldBranchFails : World :=
  { worldOk 2 with
    commandOutput := fun _ argv =>
      if (argv.drop 3).take 1 = ["branch"] then ("", some "exit status 128") else ("", none) }

/-- A stale factory working copy of `T1` is listed, every `worktree remove`
fails, and the operator answers `abort` at the first checkpoint. -/
def worldStale : World :=
  { worldOk 2 with
    readString := fun _ => ("abort\n", none)
    command := fun _ argv => if isRemove argv then some "exit status 128" else none
    commandOutput := fun _ _ => (ProjectRoot ++ "/../worktrees/factory-T1", none) }

/-! ### Lemmas on the trace predicates -/

theorem AllPlain_iff {ps : List (String × String)} {integ : Bool} {l : List Event} :
    AllPlain ps integ l ↔ ∀ e ∈ l, Plain ps integ e := by
  induction l with
  | nil => simp [AllPlain]
  | cons a l ih => simp [AllPlain, ih]

theorem AllPlain_append {ps : List (String × String)} {integ : Bool} {l₁ l₂ : List Event} :
    AllPlain ps integ (l₁ ++ l₂) ↔ AllPlain ps integ l₁ ∧ AllPlain ps integ l₂ := by
  simp only [AllPlain_iff, List.mem_append]
  constructor
  · intro h; exact ⟨fun e he => h e (Or.inl he), fun e he => h e (Or.inr he)⟩
  · rintro ⟨h1, h2⟩ e (he | he)
    · exact h1 e he
    · exact h2 e he

theorem Plain.weaken {ps qs : List (String × String)} {i j : Bool} (hps : ∀ p ∈ ps, p ∈ qs)
    (hij : i = true → j = true) {e : Event} (h : Plain ps i e) : Plain qs j e := by
  cases e <;> simp only [Plain] at h ⊢ <;> try exact h
  rename_i argv err
  refine ⟨h.1, ?_, ?_⟩
  · intro hj
    apply h.2.1
    cases i
    · rfl
    · simp [hij rfl] at hj
  · intro ha
    obtain ⟨p, hp, hq⟩ := h.2.2 ha
    exact ⟨p, hps p hp, hq⟩

theorem AllPlain.weakenAll {ps qs : List (String × String)} {i j : Bool} (hps : ∀ p ∈ ps, p ∈ qs)
    (hij : i = true → j = true) {l : List Event} (h : AllPlain ps i l) :
    AllPlain qs j l := by
  rw [AllPlain_iff] at h ⊢
  exact fun e he => (h e he).weaken hps hij

theorem Plain.not_fatal {ps : List (String × String)} {i : Bool} {e : Event} (h : Plain ps i e) :
    ¬ fatal e := by
  cases e <;> simp only [Plain, fatal] at h ⊢ <;> try (intro hf; exact hf)
  · rintro (h1 | h1)
    · exact h1 h.1
    · exact h.2 h1
  · rintro (h1 | h1)
    · exact h1 h.1
    · exact h.2.2 h1
  · rintro ⟨h1, h2⟩
    rcases h.1 with h3 | h3
    · exact h1 h3
    · exact h2 h3
  · rintro ⟨h1, h2⟩
    rcases h with h3 | h3
    · exact h1 h3
    · exact h3 h2
  · exact fun h1 => h1 h
  · exact fun h1 => h1 h

theorem Stops.weakenStops {ps qs : List (String × String)} {i j : Bool} (hps : ∀ p ∈ ps, p ∈ qs)
    (hij : i = true → j = true) {err : Option String} {l : List Event}
    (h : Stops ps i err l) : Stops qs j err l := by
  induction l with
  | nil => exact h
  | cons a l ih =>
    cases l with
    | nil => exact h
    | cons b l =>
      simp only [Stops] at h ⊢
      exact ⟨h.1.weaken hps hij, ih h.2⟩

theorem Stops_append {ps : List (String × String)} {i : Bool} {err : Option String}
    {l₁ l₂ : List Event} (h1 : AllPlain ps i l₁) (h2 : Stops ps i err l₂) :
    Stops ps i err (l₁ ++ l₂) := by
  induction l₁ with
  | nil => exact h2
  | cons a l ih =>
    have h3 := ih h1.2
    cases hl : l ++ l₂ with
    | nil => rw [hl] at h3; exact h3.elim
    | cons b m =>
      rw [hl] at h3
      simp only [List.cons_append, hl, Stops]
      exact ⟨h1.1, h3⟩

theorem Stops_split {ps : List (String × String)} {i : Bool} {err : Option String}
    {l : List Event} (h : Stops ps i err l) :
    ∃ l' e, l = l' ++ [e] ∧ AllPlain ps i l' ∧ fatal e ∧ Reports e err := by
  induction l with
  | nil => exact h.elim
  | cons a l ih =>
    cases l with
    | nil => exact ⟨[], a, rfl, trivial, h.1, h.2⟩
    | cons b l =>
      simp only [Stops] at h
      obtain ⟨l', e, hl, hp, hf, hr⟩ := ih h.2
      exact ⟨a :: l', e, by simp [hl], ⟨h.1, hp⟩, hf, hr⟩

theorem ReworkAt_split {ps : List (String × String)} {tail l : List Event} (h : ReworkAt ps tail l) :
    ∃ l', l = l' ++ Event.scanln 3 none :: tail ∧ AllPlain ps false l' := by
  induction l with
  | nil => exact h.elim
  | cons a l ih =>
    rcases h with ⟨h1, h2⟩ | ⟨h1, h2⟩
    · exact ⟨[], by simp [h1, h2], trivial⟩
    · obtain ⟨l', hl, hp⟩ := ih h2
      exact ⟨a :: l', by simp [hl], ⟨h1, hp⟩⟩

theorem ReworkAt_append {ps : List (String × String)} {tail l₁ l₂ : List Event}
    (h1 : AllPlain ps false l₁) (h2 : ReworkAt ps tail l₂) :
    ReworkAt ps tail (l₁ ++ l₂) := by
  induction l₁ with
  | nil => exact h2
  | cons a l ih => exact Or.inr ⟨h1.1, ih h1.2⟩

theorem ReworkAt.weakenRework {ps qs : List (String × String)} (hps : ∀ p ∈ ps, p ∈ qs)
    {tail l : List Event} (h : ReworkAt ps tail l) : ReworkAt qs tail l := by
  induction l with
  | nil => exact h
  | cons a l ih =>
    rcases h with h | ⟨h1, h2⟩
    · exact Or.inl h
    · exact Or.inr ⟨h1.weaken hps (fun h => h), ih h2⟩

theorem ReworkAt_tail {ps : List (String × String)} {tail l t : List Event}
    (h : ReworkAt ps tail l) : ReworkAt ps (tail ++ t) (l ++ t) := by
  induction l with
  | nil => exact h.elim
  | cons a l ih =>
    rcases h with ⟨h1, h2⟩ | ⟨h1, h2⟩
    · exact Or.inl ⟨h1, by simp [h2]⟩
    · exact Or.inr ⟨h1, ih h2⟩

theorem AllPlain.liftAll {ps : List (String × String)} {i : Bool} {l : List Event} {F Q : String × String}
    (h : AllPlain ps i l) (hps : ∀ p ∈ ps, p = F ∨ p = Q) : AllPlain [F, Q] true l :=
  h.weakenAll (fun p hp => by simpa using hps p hp) (fun _ => rfl)

theorem Stops.liftStops {ps : List (String × String)} {i : Bool} {err : Option String} {l : List Event}
    {F Q : String × String} (h : Stops ps i err l) (hps : ∀ p ∈ ps, p = F ∨ p = Q) :
    Stops [F, Q] true err l :=
  h.weakenStops (fun p hp => by simpa using hps p hp) (fun _ => rfl)

theorem ReworkAt.liftRework {ps : List (String × String)} {tail l : List Event} {F Q : String × String}
    (h : ReworkAt ps tail l) (hps : ∀ p ∈ ps, p = F ∨ p = Q) : ReworkAt [F, Q] tail l :=
  h.weakenRework (fun p hp => by simpa using hps p hp)

theorem AllPlain.toFalse {ps : List (String × String)} {l : List Event} {F Q : String × String}
    (h : AllPlain ps false l) (hps : ∀ p ∈ ps, p = F ∨ p = Q) : AllPlain [F, Q] false l :=
  h.weakenAll (fun p hp => by simpa using hps p hp) (fun h => h)

theorem Stops_none {ps : List (String × String)} {i : Bool} {l : List Event} :
    ¬ Stops ps i none l := by
  induction l with
  | nil => exact fun h => h
  | cons a l ih =>
    cases l with
    | nil =>
      rintro ⟨-, h⟩
      cases a <;> simp [Reports] at h
      rename_i resp err
      cases err <;> simp [Reports] at h
    | cons b l => exact fun h => ih h.2

theorem Guarded_of_noRead {a : Event} {l : List Event} (h : ∀ e ∈ l, ¬ e.isRead) :
    Guarded a l := by
  induction l with
  | nil => trivial
  | cons b l ih =>
    exact Or.inr ⟨h b (List.mem_cons_self _ _), ih fun e he => h e (List.mem_cons_of_mem _ he)⟩

theorem Guarded_append_of_mem {a : Event} {l₁ l₂ : List Event}
    (h : ∀ e ∈ l₁, ¬ e.isRead) (ha : a ∈ l₁) : Guarded a (l₁ ++ l₂) := by
  induction l₁ with
  | nil => simp at ha
  | cons b l ih =>
    rcases List.mem_cons.1 ha with hb | hb
    · exact Or.inl hb.symm
    · exact Or.inr ⟨h b (List.mem_cons_self _ _),
        ih (fun e he => h e (List.mem_cons_of_mem _ he)) hb⟩

theorem Guarded_elim {a e : Event} {l pre post : List Event} (h : Guarded a l)
    (hl : l = pre ++ e :: post) (he : e.isRead) (ha : ¬ a.isRead) : a ∈ pre := by
  induction pre generalizing l with
  | nil =>
    subst hl
    rcases h with h | h
    · exact absurd (h ▸ he) ha
    · exact absurd he h.1
  | cons b pre ih =>
    subst hl
    rcases h with h | h
    · exact h ▸ List.mem_cons_self _ _
    · exact List.mem_cons_of_mem _ (ih h.2 rfl)

theorem Settled_append {l₁ l₂ : List Event} (h1 : Settled l₁) (h2 : Settled l₂) :
    Settled (l₁ ++ l₂) := by
  induction l₁ with
  | nil => exact h2
  | cons a l ih =>
    refine ⟨fun hf => ?_, ih h1.2⟩
    obtain ⟨x, hx, hc⟩ := h1.1 hf
    exact ⟨x, List.mem_append_left _ hx, hc⟩

theorem Settled_elim {e : Event} {l pre post : List Event} (h : Settled l)
    (hl : l = pre ++ e :: post) (hf : removalFailed e) :
    ∃ x ∈ post, x.isCommand = true := by
  induction pre generalizing l with
  | nil =>
    subst hl
    exact h.1 hf
  | cons b pre ih =>
    subst hl
    exact ih h.2 rfl

theorem fatal_not_removalFailed {e : Event} (h : fatal e) : ¬ removalFailed e := by
  cases e with
  | run argv err =>
    cases err with
    | none => exact fun h => h
    | some e => exact fun hr => h.2 hr
  | _ => exact fun h => h

theorem branch_ne (id : String) : "factory/" ++ id ≠ "qa/" ++ id := by
  intro h
  have h1 := congrArg (fun s => s.data.head?) h
  have hf : ("factory/" : String).data = ['f', 'a', 'c', 't', 'o', 'r', 'y', '/'] := rfl
  have hq : ("qa/" : String).data = ['q', 'a', '/'] := rfl
  simp [String.data_append, hf, hq] at h1

theorem Res.exists_since {r : Res} {tr : List Event} (h : tr <+: r.trace) :
    ∃ l, r.trace = tr ++ l ∧ r.since tr = l := by
  obtain ⟨l, hl⟩ := h
  exact ⟨l, hl.symm, by simp [Res.since, ← hl]⟩

theorem worktreePath_ne_empty (s id : String) : ProjectRoot ++ s ++ id ≠ "" := by
  intro h
  have h1 := congrArg String.length h
  simp only [String.length_append] at h1
  have h2 : ProjectRoot.length = 27 := by decide
  rw [h2] at h1
  simp at h1

/-! ### The primitives, by their answers -/

theorem waitForUser_eq {W : World} {p : String} {tr tr' : List Event}
    {r : Option String} (h : waitForUser W p tr = (r, tr')) :
    ∃ resp err, tr' = tr ++ [Event.print (ColorYellow ++ p ++ ColorReset ++ "\n"),
      Event.print "Press ENTER to continue, or type 'abort' to cancel: ",
      Event.readString resp err] ∧
      (r = none → err = none ∧ TrimSpace resp ≠ "abort") ∧
      (r ≠ none → fatal (Event.readString resp err) ∧
        Reports (Event.readString resp err) r) := by
  unfold waitForUser at h
  simp only [] at h
  generalize W.readString _ = a at h
  obtain ⟨resp, err⟩ := a
  refine ⟨resp, err, ?_, ?_⟩
  · cases err <;> simp at h
    · split at h <;> simp at h <;> simp [← h.2]
    · simp [← h.2]
  · cases err <;> simp at h
    · split at h <;> simp at h <;> simp [← h.1, fatal, Reports] <;> assumption
    · simp [← h.1, fatal, Reports]

theorem getUserChoice_eq {W : World} {p : String} {tr tr' : List Event}
    {r : Int × Option String} (h : getUserChoice W p tr = (r, tr')) :
    tr' = tr ++ [Event.print (ColorYellow ++ p ++ ColorReset ++ "\n"),
      Event.print "  1) Continue to next phase\n",
      Event.print "  2) Mark as complete and ready to merge\n",
      Event.print "  3) Send back to factory for rework\n",
      Event.print "  4) Abort workflow\n",
      Event.print "Enter choice [1-4]: ", Event.scanln r.1 r.2] := by
  simp only [getUserChoice, Prod.mk.injEq] at h
  rw [← h.2, h.1]; simp

theorem runCommand_eq {W : World} {argv : List String} {tr tr' : List Event}
    {r : Option String} (h : runCommand W argv tr = (r, tr')) :
    tr' = tr ++ [Event.run argv r] := by
  simp only [runCommand, Prod.mk.injEq] at h
  rw [← h.2, h.1]

theorem runCommandOutput_eq {W : World} {argv : List String} {tr tr' : List Event}
    {r : String × Option String} (h : runCommandOutput W argv tr = (r, tr')) :
    tr' = tr ++ [Event.runOutput argv r.1 r.2] := by
  simp only [runCommandOutput, Prod.mk.injEq] at h
  rw [← h.2, h.1]

theorem readFile_eq {W : World} {path : String} {tr tr' : List Event}
    {r : String × Option String} (h : readFile W path tr = (r, tr')) :
    tr' = tr ++ [Event.readFile path r.1 r.2] := by
  simp only [readFile, Prod.mk.injEq] at h
  rw [← h.2, h.1]

theorem mkdirAll_eq {W : World} {path : String} {tr tr' : List Event}
    {r : Option String} (h : mkdirAll W path tr = (r, tr')) :
    tr' = tr ++ [Event.mkdirAll path r] := by
  simp only [mkdirAll, Prod.mk.injEq] at h
  rw [← h.2, h.1]

theorem writeFile_eq {W : World} {path data : String} {tr tr' : List Event}
    {r : Option String} (h : writeFile W path data tr = (r, tr')) :
    tr' = tr ++ [Event.writeFile path data r] := by
  simp only [writeFile, Prod.mk.injEq] at h
  rw [← h.2, h.1]

/-! ### Outcome of the handlers -/

theorem PrepareFactory_good (W : World) (o : Orchestrator) (tr : List Event) :
    (PrepareFactory W o tr).Good [("factory/" ++ o.TaskSpecID,
      ProjectRoot ++ "/../worktrees/factory-" ++ o.TaskSpecID)] false tr ∧
    (PrepareFactory W o tr).o =
      { o with FactoryWorktree := ProjectRoot ++ "/../worktrees/factory-" ++ o.TaskSpecID } ∧
    (∀ e ∈ (PrepareFactory W o tr).since tr, ¬ e.isRead) ∧
    ((PrepareFactory W o tr).err = none →
      Event.run (addFactory o.TaskSpecID) none ∈ (PrepareFactory W o tr).since tr) ∧
    Settled ((PrepareFactory W o tr).since tr) := by
  unfold PrepareFactory createWorktree
  simp only []
  rcases h : runCommandOutput W _ _ with ⟨out, t⟩
  obtain rfl := runCommandOutput_eq h
  clear h
  by_cases hc : Contains out.1 (ProjectRoot ++ "/../worktrees/factory-" ++ o.TaskSpecID)
    <;> simp only [hc, if_true, if_false]
  on_goal 1 =>
    rcases h : runCommand W ["git", "-C", ProjectRoot, "worktree", "remove", "--force", _] _
      with ⟨r, t⟩
    obtain rfl := runCommand_eq h
    clear h
  all_goals
    rcases h : runCommand W _ _ with ⟨_ | e, t⟩ <;> obtain rfl := runCommand_eq h <;>
      clear h <;> try simp only []
  on_goal 3 =>
    rcases h : mkdirAll W _ _ with ⟨_ | e, t⟩ <;> obtain rfl := mkdirAll_eq h <;>
      clear h <;> try simp only []
  on_goal 3 =>
    rcases h : writeFile W _ _ _ with ⟨_ | e, t⟩ <;> obtain rfl := writeFile_eq h <;>
      clear h <;> try simp only []
  on_goal 1 =>
    rcases h : mkdirAll W _ _ with ⟨_ | e, t⟩ <;> obtain rfl := mkdirAll_eq h <;>
      clear h <;> try simp only []
  on_goal 1 =>
    rcases h : writeFile W _ _ _ with ⟨_ | e, t⟩ <;> obtain rfl := writeFile_eq h <;>
      clear h <;> try simp only []
  all_goals simp [Res.Good, Res.since, AllPlain, Plain, Stops, fatal, Reports, isAdd,
    isRemove, isCheckout, isMerge, Event.isRead, addFactory, worktreePath_ne_empty,
    Settled, removalFailed, Event.isCommand]

theorem RunFactory_good (W : World) (o : Orchestrator) (tr : List Event) :
    (RunFactory W o tr).Good [] false tr ∧
    ((RunFactory W o tr).err = none →
      (RunFactory W o tr).o = { o with CurrentPhase := PhaseQA }) ∧
    ((RunFactory W o tr).err ≠ none → (RunFactory W o tr).o = o) ∧
    Settled ((RunFactory W o tr).since tr) := by
  unfold RunFactory
  simp only []
  rcases h : readFile W _ _ with ⟨f, t⟩
  obtain rfl := readFile_eq h
  clear h
  rcases h : waitForUser W _ _ with ⟨_ | e, t⟩ <;>
    obtain ⟨resp, err, rfl, hw⟩ := waitForUser_eq h <;> clear h <;> simp at hw <;>
    try simp only []
  on_goal 1 =>
    rcases h : waitForUser W _ _ with ⟨_ | e, t⟩ <;>
      obtain ⟨resp, err, rfl, hw⟩ := waitForUser_eq h <;> clear h <;> simp at hw <;>
      try simp only []
  on_goal 1 =>
    rcases h : runCommandOutput W _ _ with ⟨out, t⟩
    obtain rfl := runCommandOutput_eq h
    clear h
    by_cases hc : out.1 = "" <;> simp only [hc, ne_eq, not_true_eq_false, not_false_eq_true,
      if_true, if_false]
  on_goal 2 =>
    rcases h : waitForUser W _ _ with ⟨_ | e, t⟩ <;>
      obtain ⟨resp, err, rfl, hw⟩ := waitForUser_eq h <;> clear h <;> simp at hw <;>
      try simp only []
  all_goals simp_all [Res.Good, Res.since, AllPlain, Plain, Stops, fatal, Reports, isAdd,
    isRemove, isCheckout, isMerge, Settled, removalFailed, Event.isCommand]

theorem PrepareQA_good (W : World) (o : Orchestrator) (tr : List Event) :
    (PrepareQA W o tr).Good [("qa/" ++ o.TaskSpecID, (PrepareQA W o tr).o.QAWorktree)]
      false tr ∧
    ((PrepareQA W o tr).o = o ∨ (PrepareQA W o tr).o =
      { o with QAWorktree := ProjectRoot ++ "/../worktrees/qa-" ++ o.TaskSpecID }) ∧
    Settled ((PrepareQA W o tr).since tr) := by
  unfold PrepareQA
  simp only []
  rcases h : runCommandOutput W _ _ with ⟨⟨out, _ | e⟩, t⟩ <;>
    obtain rfl := runCommandOutput_eq h <;> clear h <;> try simp only []
  on_goal 1 =>
    rcases h : runCommand W _ _ with ⟨_ | e, t⟩ <;> obtain rfl := runCommand_eq h <;>
      clear h <;> try simp only []
  on_goal 1 =>
    rcases h : writeFile W _ _ _ with ⟨_ | e, t⟩ <;> obtain rfl := writeFile_eq h <;>
      clear h <;> try simp only []
  all_goals simp [Res.Good, Res.since, AllPlain, Plain, Stops, fatal, Reports, isAdd,
    isRemove, isCheckout, isMerge, worktreePath_ne_empty, Settled, removalFailed,
    Event.isCommand]

theorem RunQA_good (W : World) (o : Orchestrator) (tr : List Event) :
    tr <+: (RunQA W o tr).trace ∧
    (((RunQA W o tr).err = none ∧ AllPlain [] false ((RunQA W o tr).since tr) ∧
        (RunQA W o tr).o = { o with CurrentPhase := PhaseMerge }) ∨
      (Stops [] false (RunQA W o tr).err ((RunQA W o tr).since tr) ∧
        (RunQA W o tr).o = o) ∨
      ((RunQA W o tr).err = some "rework required" ∧
        (RunQA W o tr).o = { o with CurrentPhase := PhaseRework } ∧
        ReworkAt [] [Event.printWarning "QA FAILED - Sending back to factory"]
          ((RunQA W o tr).since tr))) ∧
    Settled ((RunQA W o tr).since tr) := by
  unfold RunQA
  simp only []
  rcases h : readFile W _ _ with ⟨f, t⟩
  obtain rfl := readFile_eq h
  clear h
  rcases h : waitForUser W _ _ with ⟨_ | e, t⟩ <;>
    obtain ⟨resp, err, rfl, hw⟩ := waitForUser_eq h <;> clear h <;> simp at hw <;>
    try simp only []
  on_goal 1 =>
    rcases h : waitForUser W _ _ with ⟨_ | e, t⟩ <;>
      obtain ⟨resp, err, rfl, hw⟩ := waitForUser_eq h <;> clear h <;> simp at hw <;>
      try simp only []
  on_goal 1 =>
    rcases h : getUserChoice W _ _ with ⟨⟨c, _ | e⟩, t⟩ <;>
      obtain rfl := getUserChoice_eq h <;> clear h <;> try simp only []
  on_goal 1 =>
    by_cases h2 : c = 2 <;> by_cases h3 : c = 3 <;> by_cases h4 : c = 4
  all_goals simp_all [Res.since, AllPlain, Plain, Stops, fatal, Reports, isAdd,
    isRemove, isCheckout, isMerge, ReworkAt, Settled, removalFailed, Event.isCommand]

theorem PrepareMerge_good (W : World) (o : Orchestrator) (tr : List Event) :
    (PrepareMerge W o tr).Good [] true tr ∧ (PrepareMerge W o tr).o = o ∧
    ((PrepareMerge W o tr).err ≠ none → Settled ((PrepareMerge W o tr).since tr)) := by
  unfold PrepareMerge
  simp only []
  rcases h : runCommandOutput W _ _ with ⟨out, t⟩
  obtain rfl := runCommandOutput_eq h
  clear h
  rcases h : waitForUser W _ _ with ⟨_ | e, t⟩ <;>
    obtain ⟨resp, err, rfl, hw⟩ := waitForUser_eq h <;> clear h <;> simp at hw <;>
    try simp only []
  on_goal 1 =>
    rcases h : runCommand W _ _ with ⟨_ | e, t⟩ <;> obtain rfl := runCommand_eq h <;>
      clear h <;> try simp only []
  on_goal 1 =>
    rcases h : runCommand W _ _ with ⟨_ | e, t⟩ <;> obtain rfl := runCommand_eq h <;>
      clear h <;> try simp only []
  on_goal 1 =>
    rcases h : waitForUser W _ _ with ⟨_ | e, t⟩ <;>
      obtain ⟨resp, err, rfl, hw⟩ := waitForUser_eq h <;> clear h <;> simp at hw <;>
      try simp only []
  on_goal 1 =>
    rcases h : runCommand W ["git", "-C", ProjectRoot, "worktree", "remove", o.FactoryWorktree] _
      with ⟨r, t⟩
    obtain rfl := runCommand_eq h
    clear h
    rcases h : runCommand W _ _ with ⟨r', t⟩
    obtain rfl := runCommand_eq h
    clear h
  all_goals simp_all [Res.Good, Res.since, AllPlain, Plain, Stops, fatal, Reports, isAdd,
    isRemove, isCheckout, isMerge, Settled, removalFailed, Event.isCommand]

/-! ### Outcome of a whole run -/

theorem Run_outcome (W : World) (o : Orchestrator) (tr : List Event) :
    (Run W o tr).RunGood o tr ∧
      ((Run W o tr).err ≠ none → Settled ((Run W o tr).since tr)) := by
  unfold Run
  simp only []
  -- Phase 1
  have hpf := PrepareFactory_good W o (tr ++ [Event.printPhase "TASKSPEC ORCHESTRATOR",
    Event.printStatus ("Starting workflow for: " ++ o.TaskSpecID)])
  generalize PrepareFactory W o _ = r1 at hpf ⊢
  obtain ⟨⟨hp1, ho1⟩, hs1, hn1, ha1, hS1⟩ := hpf
  obtain ⟨l1, ht1, hl1⟩ := Res.exists_since hp1
  rw [hl1] at ho1 hn1 ha1 hS1
  obtain ⟨err1, o1, t1⟩ := r1
  simp only at ht1 ho1 hs1 hn1 ha1
  subst ht1
  clear hl1 hp1
  have hid1 : o1.TaskSpecID = o.TaskSpecID := by rw [hs1]
  have hF1 : o1.FactoryWorktree = ProjectRoot ++ "/../worktrees/factory-" ++ o.TaskSpecID := by
    rw [hs1]
  clear hs1
  rw [← hF1] at ho1
  have hP : ∀ ps, AllPlain ps false [Event.printPhase "TASKSPEC ORCHESTRATOR",
      Event.printStatus ("Starting workflow for: " ++ o.TaskSpecID)] := by
    simp [AllPlain, Plain]
  have hSP : Settled [Event.printPhase "TASKSPEC ORCHESTRATOR",
      Event.printStatus ("Starting workflow for: " ++ o.TaskSpecID)] := by
    simp [Settled, removalFailed]
  cases err1 with
  | some e1 =>
    simp only []
    have hs := ho1.resolve_left (by simp)
    refine ⟨⟨by simp, hid1, hF1, Or.inr (Or.inl ?_), ?_⟩, fun _ => ?_⟩
    · simp only [Res.since, List.append_assoc, List.drop_left]
      exact Stops_append ((hP []).liftAll (by simp)) (hs.liftStops (by simp))
    · simp only [Res.since, List.append_assoc, List.drop_left]
      exact Guarded_of_noRead (by simpa [Event.isRead] using hn1)
    · simp only [Res.since, List.append_assoc, List.drop_left]
      exact Settled_append hSP hS1
  | none =>
    simp only []
    have hA1 := ho1.elim (fun h => h.2) (fun h => absurd h Stops_none)
    have hG : ∀ l, Guarded (Event.run (addFactory o.TaskSpecID) none)
        ([Event.printPhase "TASKSPEC ORCHESTRATOR",
          Event.printStatus ("Starting workflow for: " ++ o.TaskSpecID)] ++ l1 ++ l) :=
      fun l => Guarded_append_of_mem (by simpa [Event.isRead] using hn1)
        (List.mem_append_right _ (ha1 rfl))
    clear ho1 ha1 hn1
    -- Phase 2
    have hrf := RunFactory_good W o1 (tr ++ [Event.printPhase "TASKSPEC ORCHESTRATOR",
      Event.printStatus ("Starting workflow for: " ++ o.TaskSpecID)] ++ l1)
    generalize RunFactory W o1 _ = r2 at hrf ⊢
    obtain ⟨⟨hp2, ho2⟩, hs2, hs2', hS2⟩ := hrf
    obtain ⟨l2, ht2, hl2⟩ := Res.exists_since hp2
    rw [hl2] at ho2 hS2
    obtain ⟨err2, o2, t2⟩ := r2
    simp only at ht2 ho2 hs2 hs2'
    subst ht2
    clear hl2 hp2
    cases err2 with
    | some e2 =>
      simp only []
      have hs := ho2.resolve_left (by simp)
      obtain rfl := hs2' (by simp)
      refine ⟨⟨by simp, hid1, hF1, Or.inr (Or.inl ?_), ?_⟩, fun _ => ?_⟩
      · simp only [Res.since, List.append_assoc, List.drop_left]
        exact Stops_append ((hP []).liftAll (by simp))
          (Stops_append (hA1.liftAll (by simp)) (hs.liftStops (by simp)))
      · simp only [Res.since, List.append_assoc, List.drop_left]
        simpa using hG l2
      · simp only [Res.since, List.append_assoc, List.drop_left]
        exact Settled_append hSP (Settled_append hS1 hS2)
    | none =>
      simp only []
      have hA2 := ho2.elim (fun h => h.2) (fun h => absurd h Stops_none)
      have hid2 : o2.TaskSpecID = o.TaskSpecID := by rw [hs2 rfl]; exact hid1
      have hF2 : o2.FactoryWorktree = o1.FactoryWorktree := by rw [hs2 rfl]
      have hph2 : o2.CurrentPhase = PhaseQA := by rw [hs2 rfl]
      clear ho2 hs2 hs2'
      -- Phase 3
      have hpq := PrepareQA_good W o2 (tr ++ [Event.printPhase "TASKSPEC ORCHESTRATOR",
        Event.printStatus ("Starting workflow for: " ++ o.TaskSpecID)] ++ l1 ++ l2)
      generalize PrepareQA W o2 _ = r3 at hpq ⊢
      obtain ⟨⟨hp3, ho3⟩, hs3, hS3⟩ := hpq
      obtain ⟨l3, ht3, hl3⟩ := Res.exists_since hp3
      rw [hl3] at ho3 hS3
      obtain ⟨err3, o3, t3⟩ := r3
      simp only at ht3 ho3 hs3
      subst ht3
      clear hl3 hp3
      rw [hid2] at ho3
      have hid3 : o3.TaskSpecID = o.TaskSpecID := by
        rcases hs3 with h | h <;> rw [h] <;> exact hid2
      have hF3 : o3.FactoryWorktree = o1.FactoryWorktree := by
        rcases hs3 with h | h <;> rw [h] <;> exact hF2
      have hph3 : o3.CurrentPhase = PhaseQA := by
        rcases hs3 with h | h <;> rw [h] <;> exact hph2
      clear hs3 hid2 hF2 hph2
      rw [← hF3] at hA1
      cases err3 with
      | some e3 =>
        simp only []
        have hs := ho3.resolve_left (by simp)
        refine ⟨⟨by simp, hid3, hF3.trans hF1, Or.inr (Or.inl ?_), ?_⟩, fun _ => ?_⟩
        · simp only [Res.since, List.append_assoc, List.drop_left]
          exact Stops_append ((hP []).liftAll (by simp))
            (Stops_append (hA1.liftAll (by simp))
              (Stops_append (hA2.liftAll (by simp)) (hs.liftStops (by simp))))
        · simp only [Res.since, List.append_assoc, List.drop_left]
          simpa using hG (l2 ++ l3)
        · simp only [Res.since, List.append_assoc, List.drop_left]
          exact Settled_append hSP (Settled_append hS1 (Settled_append hS2 hS3))
      | none =>
        simp only []
        have hA3 := ho3.elim (fun h => h.2) (fun h => absurd h Stops_none)
        clear ho3
        -- Phase 4
        have hrq := RunQA_good W o3 (tr ++ [Event.printPhase "TASKSPEC ORCHESTRATOR",
          Event.printStatus ("Starting workflow for: " ++ o.TaskSpecID)] ++ l1 ++ l2 ++ l3)
        generalize RunQA W o3 _ = r4 at hrq ⊢
        obtain ⟨hp4, ho4, hS4⟩ := hrq
        obtain ⟨l4, ht4, hl4⟩ := Res.exists_since hp4
        rw [hl4] at ho4 hS4
        obtain ⟨err4, o4, t4⟩ := r4
        simp only at ht4 ho4
        subst ht4
        clear hl4 hp4
        rcases ho4 with ⟨rfl, hA4, rfl⟩ | ⟨hs4, rfl⟩ | ⟨rfl, rfl, hR4⟩
        · -- approved: Phase 5
          simp only []
          have hpm := PrepareMerge_good W { o3 with CurrentPhase := PhaseMerge }
            (tr ++ [Event.printPhase "TASKSPEC ORCHESTRATOR",
              Event.printStatus ("Starting workflow for: " ++ o.TaskSpecID)] ++ l1 ++ l2 ++
              l3 ++ l4)
          generalize PrepareMerge W _ _ = r5 at hpm ⊢
          obtain ⟨⟨hp5, ho5⟩, hs5, hS5⟩ := hpm
          obtain ⟨l5, ht5, hl5⟩ := Res.exists_since hp5
          rw [hl5] at ho5 hS5
          obtain ⟨err5, o5, t5⟩ := r5
          simp only at ht5 ho5 hs5 hS5
          subst ht5 hs5
          clear hl5 hp5
          cases err5 with
          | some e5 =>
            simp only []
            have hs := ho5.resolve_left (by simp)
            refine ⟨⟨by simp, hid3, hF3.trans hF1, Or.inr (Or.inl ?_), ?_⟩, fun _ => ?_⟩
            · simp only [Res.since, List.append_assoc, List.drop_left]
              exact Stops_append ((hP []).liftAll (by simp))
                (Stops_append (hA1.liftAll (by simp))
                  (Stops_append (hA2.liftAll (by simp))
                    (Stops_append (hA3.liftAll (by simp))
                      (Stops_append (hA4.liftAll (by simp)) (hs.liftStops (by simp))))))
            · simp only [Res.since, List.append_assoc, List.drop_left]
              simpa using hG (l2 ++ l3 ++ l4 ++ l5)
            · simp only [Res.since, List.append_assoc, List.drop_left]
              exact Settled_append hSP (Settled_append hS1 (Settled_append hS2 (Settled_append hS3
                (Settled_append hS4 (hS5 (by simp))))))
          | none =>
            simp only []
            have hA5 := ho5.elim (fun h => h.2) (fun h => absurd h Stops_none)
            refine ⟨⟨by simp, hid3, hF3.trans hF1, Or.inl ⟨rfl, rfl, ?_, ?_⟩, ?_⟩, fun h => absurd rfl h⟩
            · simp only [Res.since, List.append_assoc, List.drop_left, AllPlain_append]
              refine ⟨(hP []).liftAll (by simp), hA1.liftAll (by simp), hA2.liftAll (by simp),
                hA3.liftAll (by simp), hA4.liftAll (by simp), hA5.liftAll (by simp), ?_⟩
              simp [AllPlain, Plain]
            · simp only [Res.since, List.append_assoc, List.drop_left]
              exact ⟨[Event.printPhase "TASKSPEC ORCHESTRATOR",
                Event.printStatus ("Starting workflow for: " ++ o.TaskSpecID)] ++
                (l1 ++ (l2 ++ (l3 ++ (l4 ++ l5)))), by simp⟩
            · simp only [Res.since, List.append_assoc, List.drop_left]
              simpa using hG (l2 ++ l3 ++ l4 ++ l5 ++ [Event.printPhase "WORKFLOW COMPLETE",
                Event.printSuccess ("TaskSpec " ++ o3.TaskSpecID ++
                  " has been successfully implemented and merged!")])
        · -- stopped in the review phase
          cases err4 with
          | none => exact absurd hs4 Stops_none
          | some e4 =>
            simp only [hph3, if_neg (show PhaseQA ≠ PhaseRework by decide)]
            refine ⟨⟨by simp, hid3, hF3.trans hF1, Or.inr (Or.inl ?_), ?_⟩, fun _ => ?_⟩
            · simp only [Res.since, List.append_assoc, List.drop_left]
              exact Stops_append ((hP []).liftAll (by simp))
                (Stops_append (hA1.liftAll (by simp))
                  (Stops_append (hA2.liftAll (by simp))
                    (Stops_append (hA3.liftAll (by simp)) (hs4.liftStops (by simp)))))
            · simp only [Res.since, List.append_assoc, List.drop_left]
              simpa using hG (l2 ++ l3 ++ l4)
            · simp only [Res.since, List.append_assoc, List.drop_left]
              exact Settled_append hSP (Settled_append hS1 (Settled_append hS2 (Settled_append hS3 hS4)))
        · -- rework exit
          simp only [if_true]
          refine ⟨⟨by simp, hid3, hF3.trans hF1, Or.inr (Or.inr ⟨rfl, rfl, ?_⟩), ?_⟩, fun h => absurd rfl h⟩
          · simp only [Res.since, List.append_assoc, List.drop_left]
            exact ReworkAt_append ((hP []).toFalse (by simp))
              (ReworkAt_append (hA1.toFalse (by simp))
                (ReworkAt_append (hA2.toFalse (by simp))
                  (ReworkAt_append (hA3.toFalse (by simp))
                    ((ReworkAt_tail hR4).liftRework (by simp)))))
          · simp only [Res.since, List.append_assoc, List.drop_left]
            simpa using hG (l2 ++ l3 ++ l4 ++ [Event.printPhase "REWORK REQUIRED",
              Event.printWarning ("TaskSpec " ++ o3.TaskSpecID ++ " needs factory rework"),
              Event.printStatus ("Factory worktree: " ++ o3.FactoryWorktree),
              Event.printStatus ("QA feedback available in: " ++ o3.QAWorktree),
              Event.printStatus "Re-run this program after factory fixes are complete"])

theorem Run_good (W : World) (o : Orchestrator) (tr : List Event) :
    (Run W o tr).RunGood o tr :=
  (Run_outcome W o tr).1

theorem Run_settled (W : World) (o : Orchestrator) (tr : List Event)
    (h : (Run W o tr).err ≠ none) : Settled ((Run W o tr).since tr) :=
  (Run_outcome W o tr).2 h

/-! ### Consequences of the outcome of a run -/

theorem split_unique {P : Event → Prop} {A B pre post : List Event} {e e' : Event}
    (hA : ∀ x ∈ A, ¬ P x) (he : P e) (hB : ∀ x ∈ B, ¬ P x)
    (h : pre ++ e :: post = A ++ e' :: B) : pre = A ∧ e = e' ∧ post = B := by
  induction pre generalizing A with
  | nil =>
    cases A with
    | nil => simpa using h
    | cons a A =>
      simp only [List.nil_append, List.cons_append, List.cons.injEq] at h
      exact absurd (h.1 ▸ he) (hA a (List.mem_cons_self _ _))
  | cons b pre ih =>
    cases A with
    | nil =>
      simp only [List.nil_append, List.cons_append, List.cons.injEq] at h
      exact absurd he (hB e (by rw [← h.2]; simp))
    | cons a A =>
      simp only [List.cons_append, List.cons.injEq] at h
      obtain ⟨h1, h2, h3⟩ := ih (fun x hx => hA x (List.mem_cons_of_mem _ hx)) h.2
      exact ⟨by rw [h.1, h1], h2, h3⟩

theorem Reports.ne_none {e : Event} {err : Option String} (h : Reports e err) :
    err ≠ none := by
  cases e <;> simp only [Reports] at h <;> try exact h
  rename_i resp er
  cases er <;> simp only [Reports] at h
  · rw [h]; simp
  · exact h

theorem not_fatal_reworkReport (o : Orchestrator) : ∀ e ∈ reworkReport o, ¬ fatal e := by
  simp [reworkReport, fatal]

/-- In a run, a fatal event is the last event, and the run returns an error. -/
theorem Res.RunGood.fatal_last {r : Res} {o : Orchestrator} {tr pre post : List Event}
    {e : Event} (hg : r.RunGood o tr) (h : r.trace = tr ++ pre ++ e :: post)
    (hf : fatal e) :
    post = [] ∧ Reports e r.err ∧
      Guarded (Event.run (addFactory o.TaskSpecID) none) (pre ++ [e]) := by
  obtain ⟨hp, -, -, ho, hG⟩ := hg
  obtain ⟨l, hl, hs⟩ := Res.exists_since hp
  rw [hs] at ho hG
  have hl' : l = pre ++ e :: post := by
    rw [hl, List.append_assoc] at h
    exact List.append_cancel_left h
  subst hl'
  rcases ho with ⟨-, -, hA, -⟩ | hS | ⟨-, -, hR⟩
  · rw [AllPlain_iff] at hA
    exact absurd hf (hA e (by simp)).not_fatal
  · obtain ⟨l', e', hl', hA, hf', hr⟩ := Stops_split hS
    rw [AllPlain_iff] at hA
    obtain ⟨h1, h2, h3⟩ := split_unique (P := fatal) (fun x hx => (hA x hx).not_fatal) hf
      (by simp) hl'
    subst h2 h3
    exact ⟨rfl, hr, hG⟩
  · obtain ⟨l', hl', hA⟩ := ReworkAt_split hR
    rw [AllPlain_iff] at hA
    have hmem : e ∈ l' ++ Event.scanln 3 none :: reworkReport r.o := by
      rw [← hl']; simp
    rcases List.mem_append.1 hmem with hm | hm
    · exact absurd hf (hA e hm).not_fatal
    · rcases List.mem_cons.1 hm with hm | hm
      · subst hm; simp [fatal] at hf
      · exact absurd hf (not_fatal_reworkReport _ e hm)

/-- Every event of a run is plain, fatal, the decision 3 or part of the
rework report. -/
theorem Res.RunGood.event_cases {r : Res} {o : Orchestrator} {tr : List Event}
    (hg : r.RunGood o tr) {e : Event} (h : e ∈ r.since tr) :
    Plain [("factory/" ++ o.TaskSpecID, r.o.FactoryWorktree),
        ("qa/" ++ o.TaskSpecID, r.o.QAWorktree)] true e ∨ fatal e ∨
      e = Event.scanln 3 none ∨ e ∈ reworkReport r.o := by
  obtain ⟨-, -, -, ho, -⟩ := hg
  rcases ho with ⟨-, -, hA, -⟩ | hS | ⟨-, -, hR⟩
  · rw [AllPlain_iff] at hA
    exact Or.inl (hA _ h)
  · obtain ⟨l', e', hl', hA, hf', -⟩ := Stops_split hS
    rw [AllPlain_iff] at hA
    rw [hl'] at h
    rcases List.mem_append.1 h with hm | hm
    · exact Or.inl (hA _ hm)
    · rw [List.mem_singleton] at hm
      exact Or.inr (Or.inl (hm ▸ hf'))
  · obtain ⟨l', hl', hA⟩ := ReworkAt_split hR
    rw [AllPlain_iff] at hA
    rw [hl'] at h
    rcases List.mem_append.1 h with hm | hm
    · exact Or.inl ((hA _ hm).weaken (fun _ hp => hp) (fun _ => rfl))
    · rcases List.mem_cons.1 hm with hm | hm
      · exact Or.inr (Or.inr (Or.inl hm))
      · exact Or.inr (Or.inr (Or.inr hm))

/-- In a run, a command that is not fatal is never the last event. -/
theorem Res.RunGood.goes_on {r : Res} {o : Orchestrator} {tr pre post : List Event}
    {argv : List String} {err : Option String} (hg : r.RunGood o tr)
    (h : r.trace = tr ++ pre ++ Event.run argv err :: post)
    (hf : ¬ fatal (Event.run argv err)) : post ≠ [] := by
  rintro rfl
  obtain ⟨hp, -, -, ho, -⟩ := hg
  obtain ⟨l, hl, hs⟩ := Res.exists_since hp
  rw [hs] at ho
  have hl' : l = pre ++ [Event.run argv err] := by
    rw [hl, List.append_assoc] at h
    exact List.append_cancel_left h
  subst hl'
  rcases ho with ⟨-, -, -, l', h'⟩ | hS | ⟨-, -, hR⟩
  · have h1 : pre ++ [Event.run argv err] =
        (l' ++ [Event.printPhase "WORKFLOW COMPLETE"]) ++
          [Event.printSuccess ("TaskSpec " ++ r.o.TaskSpecID ++
            " has been successfully implemented and merged!")] := by
      rw [h']; simp
    have h2 := List.append_inj_right' h1 rfl
    simp at h2
  · obtain ⟨l', e', hl', -, hf', -⟩ := Stops_split hS
    have h2 := List.append_inj_right' hl' rfl
    simp only [List.cons.injEq, and_true] at h2
    exact hf (h2 ▸ hf')
  · obtain ⟨l', hl', -⟩ := ReworkAt_split hR
    have h1 : pre ++ [Event.run argv err] =
        (l' ++ [Event.scanln 3 none,
          Event.printWarning "QA FAILED - Sending back to factory",
          Event.printPhase "REWORK REQUIRED",
          Event.printWarning ("TaskSpec " ++ r.o.TaskSpecID ++ " needs factory rework"),
          Event.printStatus ("Factory worktree: " ++ r.o.FactoryWorktree),
          Event.printStatus ("QA feedback available in: " ++ r.o.QAWorktree)]) ++
          [Event.printStatus "Re-run this program after factory fixes are complete"] := by
      rw [hl']; simp [reworkReport]
    have h2 := List.append_inj_right' h1 rfl
    simp at h2
/-! ### Lists and strings -/

theorem not_isRemove_of_kind {argv : List String}
    (h : isAdd argv ∨ isCheckout argv ∨ isMerge argv) : ¬ isRemove argv := by
  intro hr
  unfold isRemove at hr
  have h1 : ((argv.drop 3).take 2).take 1 = ["worktree"] := by rw [hr]; rfl
  rw [List.take_take] at h1
  rcases h with h | h | h
  · unfold isAdd at h
    rw [h] at hr
    simp at hr
  · unfold isCheckout at h
    rw [show min 1 2 = 1 from rfl, h] at h1
    simp at h1
  · unfold isMerge at h
    rw [show min 1 2 = 1 from rfl, h] at h1
    simp at h1

theorem append_singleton_split {L pre post : List Event} {x e : Event} (hx : x ≠ e)
    (h : L ++ [x] = pre ++ e :: post) : ∃ post', post = post' ++ [x] ∧ L = pre ++ e :: post' := by
  rcases List.eq_nil_or_concat post with rfl | ⟨post', y, hp⟩
  on_goal 2 => rw [List.concat_eq_append] at hp; subst hp
  · have h1 : L ++ [x] = pre ++ [e] := h
    have h2 := List.append_inj_right' h1 rfl
    simp only [List.cons.injEq, and_true] at h2
    exact absurd h2 hx
  · have h1 : L ++ [x] = (pre ++ e :: post') ++ [y] := by
      rw [h]; simp
    have h2 := List.append_inj_right' h1 rfl
    have h3 := List.append_inj_left' h1 rfl
    simp only [List.cons.injEq, and_true] at h2
    subst h2
    exact ⟨post', rfl, h3⟩

theorem singleton_append_split {L pre post : List Event} {x e : Event} (hx : x ≠ e)
    (h : [x] ++ L = pre ++ e :: post) : ∃ pre', pre = [x] ++ pre' ∧ L = pre' ++ e :: post := by
  cases pre with
  | nil =>
    simp only [List.singleton_append, List.nil_append, List.cons.injEq] at h
    exact absurd h.1 hx
  | cons a pre' =>
    simp only [List.singleton_append, List.cons_append, List.cons.injEq] at h
    exact ⟨pre', by rw [h.1]; rfl, h.2⟩

theorem Contains.refl (s : String) : Contains s s := List.infix_refl _

theorem Contains.append_left {s sub : String} (h : Contains s sub) (t : String) :
    Contains (s ++ t) sub := by
  unfold Contains at h ⊢
  rw [String.data_append]
  exact h.trans (List.infix_append' [] s.data t.data)

theorem Contains.append_right {s sub : String} (h : Contains s sub) (t : String) :
    Contains (t ++ s) sub := by
  unfold Contains at h ⊢
  rw [String.data_append]
  exact h.trans (List.suffix_append t.data s.data).isInfix

theorem infix_skip {l a b : List Char} (h : l <:+: b) : l <:+: a ++ b :=
  h.trans (List.suffix_append a b).isInfix

theorem factoryInstructions_locCap (o : Orchestrator) :
    Contains (factoryInstructions o) (fmtInt o.TaskSpec.LocCap) := by
  unfold Contains factoryInstructions
  simp only [String.data_append, List.append_assoc]
  repeat (first | exact List.infix_append' _ _ _ | apply infix_skip)

theorem qaInstructions_locCap (o : Orchestrator) :
    Contains (qaInstructions o) (fmtInt o.TaskSpec.LocCap) := by
  unfold Contains qaInstructions
  simp only [String.data_append, List.append_assoc]
  repeat (first | exact List.infix_append' _ _ _ | apply infix_skip)

theorem qaInstructions_coverageCap (o : Orchestrator) :
    Contains (qaInstructions o) (fmtInt o.TaskSpec.CoverageCap) := by
  unfold Contains qaInstructions
  simp only [String.data_append, List.append_assoc]
  repeat (first | exact List.infix_append' _ _ _ | apply infix_skip)

theorem not_contains_of_not_mem (s sub : String) (c : Char) (hc : c ∈ sub.data)
    (h : c ∉ s.data) : ¬ Contains s sub := fun hs => h (hs.subset hc)


/-- C1: in `RunQA`, once both confirmations have succeeded and an integer choice
`c` has been read, 3 sets the phase to `PhaseRework` and returns the error
`rework required`, 4 returns the error `workflow aborted` and leaves the phase
unchanged, and every other integer sets the phase to `PhaseMerge` and returns no
error. -/
theorem C1_review_decision (W : World) (o : Orchestrator) (tr : List Event) (c : Int)
    (h : Event.scanln c none ∈ (RunQA W o tr).since tr) :
    (c = 3 → (RunQA W o tr).err = some "rework required" ∧
      (RunQA W o tr).o.CurrentPhase = PhaseRework) ∧
    (c = 4 → (RunQA W o tr).err = some "workflow aborted" ∧
      (RunQA W o tr).o.CurrentPhase = o.CurrentPhase) ∧
    (c ≠ 3 → c ≠ 4 → (RunQA W o tr).err = none ∧
      (RunQA W o tr).o.CurrentPhase = PhaseMerge) := by
  revert h
  unfold RunQA
  simp only []
  rcases h : readFile W _ _ with ⟨f, t⟩
  obtain rfl := readFile_eq h
  clear h
  rcases h : waitForUser W _ _ with ⟨_ | e, t⟩ <;>
    obtain ⟨resp, err, rfl, hw⟩ := waitForUser_eq h <;> clear h <;> clear hw <;>
    try simp only []
  on_goal 1 =>
    rcases h : waitForUser W _ _ with ⟨_ | e, t⟩ <;>
      obtain ⟨resp, err, rfl, hw⟩ := waitForUser_eq h <;> clear h <;> clear hw <;>
      try simp only []
  on_goal 1 =>
    rcases h : getUserChoice W _ _ with ⟨⟨c', _ | e⟩, t⟩ <;>
      obtain rfl := getUserChoice_eq h <;> clear h <;> try simp only []
  on_goal 1 =>
    by_cases h2 : c' = 2 <;> by_cases h3 : c' = 3 <;> by_cases h4 : c' = 4
  all_goals simp_all [Res.since]

set_option maxRecDepth 100000 in
theorem C1_review_decision_witness :
    (Event.scanln 3 none ∈ (RunQA (worldOk 3) orchT1 []).since [] ∧
      (RunQA (worldOk 3) orchT1 []).err = some "rework required" ∧
      (RunQA (worldOk 3) orchT1 []).o.CurrentPhase = PhaseRework) ∧
    (Event.scanln 4 none ∈ (RunQA (worldOk 4) orchT1 []).since [] ∧
      (RunQA (worldOk 4) orchT1 []).err = some "workflow aborted" ∧
      (RunQA (worldOk 4) orchT1 []).o.CurrentPhase = orchT1.CurrentPhase) ∧
    (Event.scanln (-7) none ∈ (RunQA (worldOk (-7)) orchT1 []).since [] ∧
      (RunQA (worldOk (-7)) orchT1 []).err = none ∧
      (RunQA (worldOk (-7)) orchT1 []).o.CurrentPhase = PhaseMerge) :=
  ⟨⟨by decide, (C1_review_decision (worldOk 3) orchT1 [] 3 (by decide)).1 rfl⟩,
    ⟨by decide, (C1_review_decision (worldOk 4) orchT1 [] 4 (by decide)).2.1 rfl⟩,
    ⟨by decide, (C1_review_decision (worldOk (-7)) orchT1 [] (-7) (by decide)).2.2
      (by decide) (by decide)⟩⟩

/-- C2: whenever the answer read at a confirmation checkpoint of a run is `abort`
after trimming white space, `Run` returns an error and nothing follows the
checkpoint: no version-control command, in particular no `worktree add` and no
`merge`. -/
theorem C2_abort_halts_run (W : World) (o : Orchestrator) (tr pre post : List Event)
    (resp : String) (err : Option String)
    (h : (Run W o tr).trace = tr ++ pre ++ Event.readString resp err :: post)
    (ha : TrimSpace resp = "abort") :
    (Run W o tr).err ≠ none ∧ (∀ e ∈ post, e.isCommand = false) ∧
      (∀ argv r, Event.run argv r ∈ post → ¬ isAdd argv ∧ ¬ isMerge argv) ∧
      post = [] := by
  obtain ⟨h1, h2, -⟩ := (Run_good W o tr).fatal_last h (Or.inr ha)
  subst h1
  exact ⟨h2.ne_none, by simp, by simp, rfl⟩

set_option maxRecDepth 100000 in
theorem C2_abort_halts_run_witness :
    (Run (worldAbortAt 66) orchT1 []).trace =
        [] ++ (Run (worldAbortAt 66) orchT1 []).trace.take 66 ++
          Event.readString " abort\n" none :: [] ∧
      TrimSpace " abort\n" = "abort" ∧
      ((Run (worldAbortAt 66) orchT1 []).err ≠ none ∧
        (∀ e ∈ ([] : List Event), e.isCommand = false) ∧
        (∀ argv r, Event.run argv r ∈ ([] : List Event) → ¬ isAdd argv ∧ ¬ isMerge argv) ∧
        ([] : List Event) = []) :=
  ⟨by decide, by decide,
    C2_abort_halts_run (worldAbortAt 66) orchT1 []
      ((Run (worldAbortAt 66) orchT1 []).trace.take 66) [] " abort\n" none (by decide)
      (by decide)⟩

/-- C4: the message passed by `PrepareMerge` to the no-fast-forward merge contains
the TaskSpec identifier and the marker `status=done`. -/
theorem C4_merge_message (W : World) (o : Orchestrator) (tr : List Event)
    (argv : List String) (r : Option String)
    (h : Event.run argv r ∈ (PrepareMerge W o tr).since tr) (hm : isMerge argv) :
    ∃ msg, argv = ["git", "-C", ProjectRoot, "merge", "--no-ff", "-m", msg,
        "qa/" ++ o.TaskSpecID] ∧
      Contains msg o.TaskSpecID ∧ Contains msg "status=done" := by
  have key : Contains (mergeMessage o) o.TaskSpecID ∧
      Contains (mergeMessage o) "status=done" := by
    unfold mergeMessage
    constructor
    · apply Contains.append_left
      apply Contains.append_right
      exact Contains.refl _
    · apply Contains.append_right
      decide
  revert h
  unfold PrepareMerge
  simp only []
  rcases h : runCommandOutput W _ _ with ⟨out, t⟩
  obtain rfl := runCommandOutput_eq h
  clear h
  rcases h : waitForUser W _ _ with ⟨_ | e, t⟩ <;>
    obtain ⟨resp, err, rfl, hw⟩ := waitForUser_eq h <;> clear h <;> clear hw <;>
    try simp only []
  on_goal 1 =>
    rcases h : runCommand W _ _ with ⟨_ | e, t⟩ <;> obtain rfl := runCommand_eq h <;>
      clear h <;> try simp only []
  on_goal 1 =>
    rcases h : runCommand W _ _ with ⟨_ | e, t⟩ <;> obtain rfl := runCommand_eq h <;>
      clear h <;> try simp only []
  on_goal 1 =>
    rcases h : waitForUser W _ _ with ⟨_ | e, t⟩ <;>
      obtain ⟨resp, err, rfl, hw⟩ := waitForUser_eq h <;> clear h <;> clear hw <;>
      try simp only []
  on_goal 1 =>
    rcases h : runCommand W ["git", "-C", ProjectRoot, "worktree", "remove", o.FactoryWorktree] _
      with ⟨r, t⟩
    obtain rfl := runCommand_eq h
    clear h
    rcases h : runCommand W _ _ with ⟨r', t⟩
    obtain rfl := runCommand_eq h
    clear h
  all_goals
    simp only [Res.since, List.append_assoc, List.drop_left, List.mem_append, List.mem_cons,
      List.mem_singleton, List.not_mem_nil, or_false, false_or, reduceCtorEq,
      Event.run.injEq]
    intro h
    revert hm
    rcases h with h | h | h | h <;> (try rcases h with ⟨rfl, -⟩) <;>
      simp [isMerge, key]

set_option maxRecDepth 100000 in
theorem C4_merge_message_witness :
    Event.run ["git", "-C", ProjectRoot, "merge", "--no-ff", "-m", mergeMessage orchT1,
        "qa/T1"] none ∈ (PrepareMerge (worldOk 2) orchT1 []).since [] ∧
      isMerge ["git", "-C", ProjectRoot, "merge", "--no-ff", "-m", mergeMessage orchT1,
        "qa/T1"] ∧
      ∃ msg, ["git", "-C", ProjectRoot, "merge", "--no-ff", "-m", mergeMessage orchT1,
          "qa/T1"] = ["git", "-C", ProjectRoot, "merge", "--no-ff", "-m", msg,
          "qa/" ++ orchT1.TaskSpecID] ∧
        Contains msg orchT1.TaskSpecID ∧ Contains msg "status=done" :=
  ⟨by decide, by decide,
    C4_merge_message (worldOk 2) orchT1 [] _ none (by decide) (by decide)⟩

/-- C5 (amended): when the operator answers `abort` at a confirmation checkpoint
(the first one included) and the line is read without error, the factory
working copy has already been created: a successful `worktree add` of the
branch `factory/<identifier>` precedes the checkpoint; nothing follows the
checkpoint but the diagnostic `Workflow failed: operation aborted by user`, and
the process exits with code 1. -/
theorem C5_abort_exit_code (W : World) (args : List String) (pre post : List Event)
    (resp : String)
    (h : (main W args).2 = pre ++ Event.readString resp none :: post)
    (ha : TrimSpace resp = "abort") :
    (main W args).1 = 1 ∧
    post = [Event.printError "Workflow failed: operation aborted by user"] ∧
    ∃ id, args.get? 1 = some id ∧ Event.run (addFactory id) none ∈ pre := by
  revert h
  unfold main
  rcases args with _ | ⟨a, _ | ⟨id, rest⟩⟩
  · intro h
    have : Event.readString resp none ∈ [Event.printError "Usage: taskspec_orchestrator <TASKSPEC_ID>",
        Event.printError "Example: taskspec_orchestrator 001-TS-2025-08-19-AUTH-MIDDLEWARE"] := by
      simp only [] at h
      rw [h]; simp
    simp at this
  · intro h
    have : Event.readString resp none ∈ [Event.printError "Usage: taskspec_orchestrator <TASKSPEC_ID>",
        Event.printError "Example: taskspec_orchestrator 001-TS-2025-08-19-AUTH-MIDDLEWARE"] := by
      simp only [] at h
      rw [h]; simp
    simp at this
  · simp only []
    unfold LoadTaskSpec
    simp only []
    rcases h0 : readFile W _ _ with ⟨⟨data, _ | e⟩, t⟩ <;> obtain rfl := readFile_eq h0 <;>
      clear h0 <;> simp only []
    · rcases hy : W.yamlUnmarshal data with e | ts <;> simp only []
      · intro h
        have : Event.readString resp none ∈ ([] : List Event) ++
            [Event.readFile (W.filepathJoin TaskSpecDir (id ++ ".yaml")) data none] ++
            [Event.printError ("Failed to load TaskSpec: " ++
              ("failed to parse TaskSpec YAML: " ++ e))] := by
          rw [h]; simp
        simp at this
      · have hg := Run_good W (Orchestrator.mk id ts
          (W.filepathJoin TaskSpecDir (id ++ ".yaml")) "" "" PhaseFactory)
          ([] ++ [Event.readFile (W.filepathJoin TaskSpecDir (id ++ ".yaml")) data none])
        generalize Run W _ _ = r at hg ⊢
        obtain ⟨l, hl, hs⟩ := Res.exists_since hg.1
        rcases he : r.err with _ | e <;> simp only []
        · intro h
          rw [hl, List.nil_append] at h
          obtain ⟨pre', rfl, h'⟩ := singleton_append_split (by simp) h
          have h1 := hg.fatal_last (show r.trace = [] ++ [Event.readFile
              (W.filepathJoin TaskSpecDir (id ++ ".yaml")) data none] ++ pre' ++
              Event.readString resp none :: post by rw [hl, h']; simp) (Or.inr ha)
          rw [he] at h1
          exact absurd rfl h1.2.1.ne_none
        · intro h
          obtain ⟨post', rfl, h'⟩ := append_singleton_split (by simp) h
          rw [hl, List.nil_append] at h'
          obtain ⟨pre', rfl, h''⟩ := singleton_append_split (by simp) h'
          obtain ⟨h1, h2, h3⟩ := hg.fatal_last (show r.trace = [] ++ [Event.readFile
              (W.filepathJoin TaskSpecDir (id ++ ".yaml")) data none] ++ pre' ++
              Event.readString resp none :: post' by rw [hl, h'']; simp) (Or.inr ha)
          subst h1
          rw [he] at h2
          simp only [Reports, Option.some.injEq] at h2
          subst h2
          refine ⟨trivial, rfl, id, rfl, ?_⟩
          exact List.mem_append_right _ (Guarded_elim h3 rfl rfl (by simp [Event.isRead]))
    · intro h
      have : Event.readString resp none ∈ ([] : List Event) ++
          [Event.readFile (W.filepathJoin TaskSpecDir (id ++ ".yaml")) data (some e)] ++
          [Event.printError ("Failed to load TaskSpec: " ++
            ("failed to read TaskSpec file: " ++ e))] := by
        rw [h]; simp
      simp at this

set_option maxRecDepth 100000 in
theorem C5_abort_exit_code_witness :
    (main worldAbort ["taskspec_orchestrator", "T1"]).2 =
        (main worldAbort ["taskspec_orchestrator", "T1"]).2.take 24 ++
          Event.readString "abort\n" none ::
          (main worldAbort ["taskspec_orchestrator", "T1"]).2.drop 25 ∧
      TrimSpace "abort\n" = "abort" ∧
      (main worldAbort ["taskspec_orchestrator", "T1"]).1 = 1 ∧
      (main worldAbort ["taskspec_orchestrator", "T1"]).2.drop 25 =
        [Event.printError "Workflow failed: operation aborted by user"] ∧
      ∃ id, ["taskspec_orchestrator", "T1"].get? 1 = some id ∧
        Event.run (addFactory id) none ∈
          (main worldAbort ["taskspec_orchestrator", "T1"]).2.take 24 :=
  ⟨by decide, by decide,
    C5_abort_exit_code worldAbort ["taskspec_orchestrator", "T1"]
      ((main worldAbort ["taskspec_orchestrator", "T1"]).2.take 24)
      ((main worldAbort ["taskspec_orchestrator", "T1"]).2.drop 25) "abort\n" (by decide)
      (by decide)⟩

set_option maxRecDepth 100000 in
/-- C5, as stated, fails: the operator answers `abort` at the very first
confirmation checkpoint (no line is read before it), yet the factory working
copy has been created by a successful `worktree add` before the checkpoint, and
the process exits with code 1, not zero. -/
theorem C5_counterexample :
    ((main worldAbort ["taskspec_orchestrator", "T1"]).2 =
        (main worldAbort ["taskspec_orchestrator", "T1"]).2.take 24 ++
          Event.readString "abort\n" none ::
          (main worldAbort ["taskspec_orchestrator", "T1"]).2.drop 25 ∧
      ∀ e ∈ (main worldAbort ["taskspec_orchestrator", "T1"]).2.take 24,
        e.isRead = false) ∧
    (∃ e ∈ (main worldAbort ["taskspec_orchestrator", "T1"]).2.take 24,
      e.isCreated = true) ∧
    (main worldAbort ["taskspec_orchestrator", "T1"]).1 ≠ 0 := by
  decide

/-- C6 (amended): at the end of every run `FactoryWorktree` is non-empty, whether
or not the creation succeeded; every working copy created successfully in the
run (every successful `worktree add`) is on the branch `factory/<id>` or on the
branch `qa/<id>`; the path of a factory copy created successfully is held by
`FactoryWorktree`, which is non-empty, and the path of a review copy created
successfully is held by `QAWorktree`, which is non-empty; all this also after
the cleanup of `PrepareMerge`. -/
theorem C6_handles_keep_created_paths (W : World) (o : Orchestrator) (tr : List Event) :
    (Run W o tr).o.FactoryWorktree ≠ "" ∧
    (∀ argv, Event.run argv none ∈ (Run W o tr).since tr → isAdd argv →
      argv.get? 6 = some ("factory/" ++ o.TaskSpecID) ∨
        argv.get? 6 = some ("qa/" ++ o.TaskSpecID)) ∧
    (∀ argv, Event.run argv none ∈ (Run W o tr).since tr → isAdd argv →
      argv.get? 6 = some ("factory/" ++ o.TaskSpecID) →
      argv.get? 7 = some (Run W o tr).o.FactoryWorktree ∧
        (Run W o tr).o.FactoryWorktree ≠ "") ∧
    (∀ argv, Event.run argv none ∈ (Run W o tr).since tr → isAdd argv →
      argv.get? 6 = some ("qa/" ++ o.TaskSpecID) →
      argv.get? 7 = some (Run W o tr).o.QAWorktree ∧
        (Run W o tr).o.QAWorktree ≠ "") := by
  have hg := Run_good W o tr
  have key : ∀ argv, Event.run argv none ∈ (Run W o tr).since tr → isAdd argv →
      (argv.get? 6 = some ("factory/" ++ o.TaskSpecID) ∧
        argv.get? 7 = some (Run W o tr).o.FactoryWorktree ∧
        (Run W o tr).o.FactoryWorktree ≠ "") ∨
      (argv.get? 6 = some ("qa/" ++ o.TaskSpecID) ∧
        argv.get? 7 = some (Run W o tr).o.QAWorktree ∧
        (Run W o tr).o.QAWorktree ≠ "") := by
    intro argv hm ha
    rcases hg.event_cases hm with h | h | h | h
    · simp only [Plain] at h
      obtain ⟨p, hp, h6, h7, hne⟩ := h.2.2 ha
      simp only [List.mem_cons, List.mem_singleton, List.not_mem_nil, or_false] at hp
      rcases hp with rfl | rfl
      · exact Or.inl ⟨h6, h7, hne⟩
      · exact Or.inr ⟨h6, h7, hne⟩
    · simp [fatal] at h
    · simp at h
    · simp [reworkReport] at h
  refine ⟨?_, fun argv hm ha => ?_, fun argv hm ha hb => ?_, fun argv hm ha hb => ?_⟩
  · rw [hg.2.2.1]
    exact worktreePath_ne_empty _ _
  · rcases key argv hm ha with h | h
    · exact Or.inl h.1
    · exact Or.inr h.1
  · rcases key argv hm ha with h | h
    · exact h.2
    · rw [hb] at h
      exact absurd (Option.some.inj h.1) (branch_ne _)
  · rcases key argv hm ha with h | h
    · rw [hb] at h
      exact absurd (Option.some.inj h.1).symm (branch_ne _)
    · exact h.2

set_option maxRecDepth 100000 in
theorem C6_handles_keep_created_paths_witness :
    (Event.run (addFactory "T1") none ∈ (Run (worldOk 2) orchT1 []).since [] ∧
      isAdd (addFactory "T1") ∧
      (addFactory "T1").get? 6 = some ("factory/" ++ orchT1.TaskSpecID) ∧
      (addFactory "T1").get? 7 = some (Run (worldOk 2) orchT1 []).o.FactoryWorktree ∧
      (Run (worldOk 2) orchT1 []).o.FactoryWorktree ≠ "") ∧
    (Event.run ["git", "-C", ProjectRoot, "worktree", "add", "-b", "qa/T1",
        ProjectRoot ++ "/../worktrees/qa-T1", "factory/T1"] none ∈
          (Run (worldOk 2) orchT1 []).since [] ∧
      isAdd ["git", "-C", ProjectRoot, "worktree", "add", "-b", "qa/T1",
        ProjectRoot ++ "/../worktrees/qa-T1", "factory/T1"] ∧
      ["git", "-C", ProjectRoot, "worktree", "add", "-b", "qa/T1",
        ProjectRoot ++ "/../worktrees/qa-T1", "factory/T1"].get? 6 =
          some ("qa/" ++ orchT1.TaskSpecID) ∧
      ["git", "-C", ProjectRoot, "worktree", "add", "-b", "qa/T1",
        ProjectRoot ++ "/../worktrees/qa-T1", "factory/T1"].get? 7 =
          some (Run (worldOk 2) orchT1 []).o.QAWorktree ∧
      (Run (worldOk 2) orchT1 []).o.QAWorktree ≠ "") :=
  ⟨⟨by decide, by decide, by decide,
      (C6_handles_keep_created_paths (worldOk 2) orchT1 []).2.2.1 (addFactory "T1")
        (by decide) (by decide) (by decide)⟩,
    ⟨by decide, by decide, by decide,
      (C6_handles_keep_created_paths (worldOk 2) orchT1 []).2.2.2
        ["git", "-C", ProjectRoot, "worktree", "add", "-b", "qa/T1",
          ProjectRoot ++ "/../worktrees/qa-T1", "factory/T1"]
        (by decide) (by decide) (by decide)⟩⟩

set_option maxRecDepth 100000 in
/-- C6, as stated, fails in both directions of time: after a failed creation the
handle `FactoryWorktree` is non-empty although no working copy was created, and
after the cleanup of `PrepareMerge` both handles are still non-empty although
both working copies were removed. -/
theorem C6_counterexample :
    ((Run worldAddFails orchT1 []).o.FactoryWorktree ≠ "" ∧
      ∀ e ∈ (Run worldAddFails orchT1 []).trace, e.isCreated = false) ∧
    ((Run (worldOk 2) orchT1 []).o.FactoryWorktree ≠ "" ∧
      (Run (worldOk 2) orchT1 []).o.QAWorktree ≠ "" ∧
      Event.run ["git", "-C", ProjectRoot, "worktree", "remove",
        (Run (worldOk 2) orchT1 []).o.FactoryWorktree] none ∈
          (Run (worldOk 2) orchT1 []).trace ∧
      Event.run ["git", "-C", ProjectRoot, "worktree", "remove",
        (Run (worldOk 2) orchT1 []).o.QAWorktree] none ∈
          (Run (worldOk 2) orchT1 []).trace) := by
  decide

/-- C7 (amended): when the creation of a working copy (`worktree add`), the
checkout of main or the merge fails, `Run` returns an error at once: nothing
follows the failed command, no further version-control command and no cleanup
removal.  A failing `worktree remove` does not stop the run: it is never the
last event, and after it a further command is issued or `Run` returns no error;
and whenever `Run` returns an error, the last event of the run is a fatal one,
which a failed removal is not. -/
theorem C7_failed_command_halts_run (W : World) (o : Orchestrator) (tr : List Event) :
    (∀ pre post argv e,
      (Run W o tr).trace = tr ++ pre ++ Event.run argv (some e) :: post →
      isAdd argv ∨ isCheckout argv ∨ isMerge argv →
      (Run W o tr).err ≠ none ∧ (∀ x ∈ post, x.isCommand = false) ∧ post = []) ∧
    (∀ pre post argv e,
      (Run W o tr).trace = tr ++ pre ++ Event.run argv (some e) :: post →
      isRemove argv →
      post ≠ [] ∧ ((∃ x ∈ post, x.isCommand = true) ∨ (Run W o tr).err = none)) ∧
    ((Run W o tr).err ≠ none →
      ∃ l x, (Run W o tr).since tr = l ++ [x] ∧ fatal x ∧ ¬ removalFailed x) := by
  refine ⟨?_, ?_, ?_⟩
  · intro pre post argv e h hk
    obtain ⟨h1, h2, -⟩ := (Run_good W o tr).fatal_last h
      ⟨by simp, not_isRemove_of_kind hk⟩
    subst h1
    exact ⟨h2.ne_none, by simp, rfl⟩
  · intro pre post argv e h hr
    refine ⟨(Run_good W o tr).goes_on h (fun hf => hf.2 hr), ?_⟩
    by_cases he : (Run W o tr).err = none
    · exact Or.inr he
    · obtain ⟨l, hl, hs⟩ := Res.exists_since (Run_good W o tr).1
      have hS := Run_settled W o tr he
      rw [hs] at hS
      have hl' : l = pre ++ Event.run argv (some e) :: post := by
        rw [hl, List.append_assoc] at h
        exact List.append_cancel_left h
      exact Or.inl (Settled_elim hS hl' hr)
  · intro he
    obtain ⟨-, -, -, ho, -⟩ := Run_good W o tr
    rcases ho with ⟨h, -⟩ | hS | ⟨h, -⟩
    · exact absurd h he
    · obtain ⟨l, x, hl, -, hf, -⟩ := Stops_split hS
      exact ⟨l, x, hl, hf, fatal_not_removalFailed hf⟩
    · exact absurd h he

set_option maxRecDepth 100000 in
theorem C7_failed_command_halts_run_witness :
    ((Run worldAddFails orchT1 []).trace =
        [] ++ (Run worldAddFails orchT1 []).trace.take 10 ++
          Event.run (addFactory "T1") (some "exit status 128") :: [] ∧
      (isAdd (addFactory "T1") ∨ isCheckout (addFactory "T1") ∨ isMerge (addFactory "T1")) ∧
      (Run worldAddFails orchT1 []).err ≠ none ∧
      (∀ x ∈ ([] : List Event), x.isCommand = false) ∧ ([] : List Event) = []) ∧
    ((Run worldRemoveFails orchT1 []).trace =
        [] ++ (Run worldRemoveFails orchT1 []).trace.take 73 ++
          Event.run ["git", "-C", ProjectRoot, "worktree", "remove",
            ProjectRoot ++ "/../worktrees/factory-T1"] (some "exit status 128") ::
          (Run worldRemoveFails orchT1 []).trace.drop 74 ∧
      isRemove ["git", "-C", ProjectRoot, "worktree", "remove",
        ProjectRoot ++ "/../worktrees/factory-T1"] ∧
      (Run worldRemoveFails orchT1 []).trace.drop 74 ≠ [] ∧
      ((∃ x ∈ (Run worldRemoveFails orchT1 []).trace.drop 74, x.isCommand = true) ∨
        (Run worldRemoveFails orchT1 []).err = none)) ∧
    ((Run worldStale orchT1 []).trace =
        [] ++ (Run worldStale orchT1 []).trace.take 11 ++
          Event.run ["git", "-C", ProjectRoot, "worktree", "remove", "--force",
            ProjectRoot ++ "/../worktrees/factory-T1"] (some "exit status 128") ::
          (Run worldStale orchT1 []).trace.drop 12 ∧
      isRemove ["git", "-C", ProjectRoot, "worktree", "remove", "--force",
        ProjectRoot ++ "/../worktrees/factory-T1"] ∧
      (Run worldStale orchT1 []).err ≠ none ∧
      (Run worldStale orchT1 []).trace.drop 12 ≠ [] ∧
      ((∃ x ∈ (Run worldStale orchT1 []).trace.drop 12, x.isCommand = true) ∨
        (Run worldStale orchT1 []).err = none)) ∧
    ((Run worldStale orchT1 []).err ≠ none ∧
      ∃ l x, (Run worldStale orchT1 []).since [] = l ++ [x] ∧ fatal x ∧
        ¬ removalFailed x) :=
  ⟨⟨by decide, by decide,
      (C7_failed_command_halts_run worldAddFails orchT1 []).1
        ((Run worldAddFails orchT1 []).trace.take 10) [] (addFactory "T1") "exit status 128"
        (by decide) (by decide)⟩,
    ⟨by decide, by decide,
      (C7_failed_command_halts_run worldRemoveFails orchT1 []).2.1
        ((Run worldRemoveFails orchT1 []).trace.take 73)
        ((Run worldRemoveFails orchT1 []).trace.drop 74)
        ["git", "-C", ProjectRoot, "worktree", "remove",
          ProjectRoot ++ "/../worktrees/factory-T1"] "exit status 128"
        (by decide) (by decide)⟩,
    ⟨by decide, by decide, by decide,
      (C7_failed_command_halts_run worldStale orchT1 []).2.1
        ((Run worldStale orchT1 []).trace.take 11)
        ((Run worldStale orchT1 []).trace.drop 12)
        ["git", "-C", ProjectRoot, "worktree", "remove", "--force",
          ProjectRoot ++ "/../worktrees/factory-T1"] "exit status 128"
        (by decide) (by decide)⟩,
    ⟨by decide, (C7_failed_command_halts_run worldStale orchT1 []).2.2 (by decide)⟩⟩

set_option maxRecDepth 100000 in
/-- C7, as stated, fails: when the cleanup removal of the factory working copy
fails, `Run` goes on, issues the removal of the review working copy and returns
no error. -/
theorem C7_counterexample :
    (Run worldRemoveFails orchT1 []).trace =
        (Run worldRemoveFails orchT1 []).trace.take 73 ++
          Event.run ["git", "-C", ProjectRoot, "worktree", "remove",
            ProjectRoot ++ "/../worktrees/factory-T1"] (some "exit status 128") ::
          (Run worldRemoveFails orchT1 []).trace.drop 74 ∧
      (Run worldRemoveFails orchT1 []).err = none ∧
      ∃ x ∈ (Run worldRemoveFails orchT1 []).trace.drop 74, x.isCommand = true := by
  decide

/-- C8 (amended): every instruction document written by `PrepareFactory` contains
the decimal rendering of the LOC cap, and every instruction document written by
`PrepareQA` contains the decimal renderings of the LOC cap and of the coverage
floor. -/
theorem C8_budgets_in_instructions (W : World) (o : Orchestrator) (tr : List Event) :
    (∀ path data r, Event.writeFile path data r ∈ (PrepareFactory W o tr).since tr →
      Contains data (fmtInt o.TaskSpec.LocCap)) ∧
    (∀ path data r, Event.writeFile path data r ∈ (PrepareQA W o tr).since tr →
      Contains data (fmtInt o.TaskSpec.LocCap) ∧
        Contains data (fmtInt o.TaskSpec.CoverageCap)) := by
  constructor
  · unfold PrepareFactory createWorktree
    simp only []
    rcases h : runCommandOutput W _ _ with ⟨out, t⟩
    obtain rfl := runCommandOutput_eq h
    clear h
    by_cases hc : Contains out.1 (ProjectRoot ++ "/../worktrees/factory-" ++ o.TaskSpecID)
      <;> simp only [hc, if_true, if_false]
    on_goal 1 =>
      rcases h : runCommand W ["git", "-C", ProjectRoot, "worktree", "remove", "--force", _] _
        with ⟨r, t⟩
      obtain rfl := runCommand_eq h
      clear h
    all_goals
      rcases h : runCommand W _ _ with ⟨_ | e, t⟩ <;> obtain rfl := runCommand_eq h <;>
        clear h <;> try simp only []
    on_goal 3 =>
      rcases h : mkdirAll W _ _ with ⟨_ | e, t⟩ <;> obtain rfl := mkdirAll_eq h <;>
        clear h <;> try simp only []
    on_goal 3 =>
      rcases h : writeFile W _ _ _ with ⟨_ | e, t⟩ <;> obtain rfl := writeFile_eq h <;>
        clear h <;> try simp only []
    on_goal 1 =>
      rcases h : mkdirAll W _ _ with ⟨_ | e, t⟩ <;> obtain rfl := mkdirAll_eq h <;>
        clear h <;> try simp only []
    on_goal 1 =>
      rcases h : writeFile W _ _ _ with ⟨_ | e, t⟩ <;> obtain rfl := writeFile_eq h <;>
        clear h <;> try simp only []
    all_goals
      intro path data r hm
      simp [Res.since] at hm
      try (obtain ⟨-, rfl, -⟩ := hm; exact factoryInstructions_locCap _)
  · unfold PrepareQA
    simp only []
    rcases h : runCommandOutput W _ _ with ⟨⟨out, _ | e⟩, t⟩ <;>
      obtain rfl := runCommandOutput_eq h <;> clear h <;> try simp only []
    on_goal 1 =>
      rcases h : runCommand W _ _ with ⟨_ | e, t⟩ <;> obtain rfl := runCommand_eq h <;>
        clear h <;> try simp only []
    on_goal 1 =>
      rcases h : writeFile W _ _ _ with ⟨_ | e, t⟩ <;> obtain rfl := writeFile_eq h <;>
        clear h <;> try simp only []
    all_goals
      intro path data r hm
      simp [Res.since] at hm
      try (obtain ⟨-, rfl, -⟩ := hm;
           exact ⟨qaInstructions_locCap _, qaInstructions_coverageCap _⟩)

set_option maxRecDepth 100000 in
theorem C8_budgets_in_instructions_witness :
    (Event.writeFile (TempDir ++ "/factory_instructions.md")
        (factoryInstructions (PrepareFactory (worldOk 2) orchT1 []).o) none ∈
        (PrepareFactory (worldOk 2) orchT1 []).since [] ∧
      Contains (factoryInstructions (PrepareFactory (worldOk 2) orchT1 []).o)
        (fmtInt orchT1.TaskSpec.LocCap)) ∧
    (Event.writeFile (TempDir ++ "/qa_instructions.md")
        (qaInstructions (PrepareQA (worldOk 2) orchT1 []).o) none ∈
        (PrepareQA (worldOk 2) orchT1 []).since [] ∧
      Contains (qaInstructions (PrepareQA (worldOk 2) orchT1 []).o)
        (fmtInt orchT1.TaskSpec.LocCap) ∧
      Contains (qaInstructions (PrepareQA (worldOk 2) orchT1 []).o)
        (fmtInt orchT1.TaskSpec.CoverageCap)) :=
  ⟨⟨by decide, (C8_budgets_in_instructions (worldOk 2) orchT1 []).1 _ _ _
      (show Event.writeFile (TempDir ++ "/factory_instructions.md")
        (factoryInstructions (PrepareFactory (worldOk 2) orchT1 []).o) none ∈
        (PrepareFactory (worldOk 2) orchT1 []).since [] by decide)⟩,
    ⟨by decide, (C8_budgets_in_instructions (worldOk 2) orchT1 []).2 _ _ _
      (show Event.writeFile (TempDir ++ "/qa_instructions.md")
        (qaInstructions (PrepareQA (worldOk 2) orchT1 []).o) none ∈
        (PrepareQA (worldOk 2) orchT1 []).since [] by decide)⟩⟩

set_option maxRecDepth 100000 in
/-- C8, as stated, fails: for `T1` (LOC cap 200, coverage floor 80) the factory
instructions written by `PrepareFactory` do not contain `80`. -/
theorem C8_counterexample :
    Event.writeFile (TempDir ++ "/factory_instructions.md")
        (factoryInstructions (PrepareFactory (worldOk 2) orchT1 []).o) none ∈
        (PrepareFactory (worldOk 2) orchT1 []).since [] ∧
      fmtInt orchT1.TaskSpec.CoverageCap = "80" ∧
      ¬ Contains (factoryInstructions (PrepareFactory (worldOk 2) orchT1 []).o)
        (fmtInt orchT1.TaskSpec.CoverageCap) :=
  ⟨by decide, by decide, not_contains_of_not_mem _ _ '8' (by decide) (by decide)⟩

/-- C10: in `PrepareQA`, the review working copy is created on the branch
`qa/<identifier>` with base ref the name reported as current branch of the
factory working copy, white space trimmed (not a fixed `main`): every
`worktree add` of `PrepareQA` has that form, and one is issued whenever the
query succeeds; when the query fails, its error is returned and no command
follows, so no review working copy is created. -/
theorem C10_review_copy_base (W : World) (o : Orchestrator) (tr : List Event) :
    (∀ argv r, Event.run argv r ∈ (PrepareQA W o tr).since tr → isAdd argv →
      ∃ out, Event.runOutput ["git", "-C", o.FactoryWorktree, "branch", "--show-current"]
          out none ∈ (PrepareQA W o tr).since tr ∧
        argv = ["git", "-C", ProjectRoot, "worktree", "add", "-b", "qa/" ++ o.TaskSpecID,
          ProjectRoot ++ "/../worktrees/qa-" ++ o.TaskSpecID, TrimSpace out]) ∧
    (∀ out, Event.runOutput ["git", "-C", o.FactoryWorktree, "branch", "--show-current"]
        out none ∈ (PrepareQA W o tr).since tr →
      ∃ r, Event.run ["git", "-C", ProjectRoot, "worktree", "add", "-b",
        "qa/" ++ o.TaskSpecID, ProjectRoot ++ "/../worktrees/qa-" ++ o.TaskSpecID,
        TrimSpace out] r ∈ (PrepareQA W o tr).since tr) ∧
    (∀ out e, Event.runOutput ["git", "-C", o.FactoryWorktree, "branch", "--show-current"]
        out (some e) ∈ (PrepareQA W o tr).since tr →
      (PrepareQA W o tr).err = some e ∧
        ∀ argv r, Event.run argv r ∉ (PrepareQA W o tr).since tr) := by
  unfold PrepareQA
  simp only []
  rcases h : runCommandOutput W _ _ with ⟨⟨out, _ | e⟩, t⟩ <;>
    obtain rfl := runCommandOutput_eq h <;> clear h <;> try simp only []
  on_goal 1 =>
    rcases h : runCommand W _ _ with ⟨_ | e, t⟩ <;> obtain rfl := runCommand_eq h <;>
      clear h <;> try simp only []
  on_goal 1 =>
    rcases h : writeFile W _ _ _ with ⟨_ | e, t⟩ <;> obtain rfl := writeFile_eq h <;>
      clear h <;> try simp only []
  all_goals simp [Res.since, isAdd]

set_option maxRecDepth 100000 in
theorem C10_review_copy_base_witness :
    (Event.run ["git", "-C", ProjectRoot, "worktree", "add", "-b", "qa/T1",
        ProjectRoot ++ "/../worktrees/qa-T1", "factory/T1"] none ∈
        (PrepareQA (worldOk 2) orchT1 []).since [] ∧
      isAdd ["git", "-C", ProjectRoot, "worktree", "add", "-b", "qa/T1",
        ProjectRoot ++ "/../worktrees/qa-T1", "factory/T1"] ∧
      ∃ out, Event.runOutput ["git", "-C", orchT1.FactoryWorktree, "branch",
          "--show-current"] out none ∈ (PrepareQA (worldOk 2) orchT1 []).since [] ∧
        ["git", "-C", ProjectRoot, "worktree", "add", "-b", "qa/T1",
          ProjectRoot ++ "/../worktrees/qa-T1", "factory/T1"] =
        ["git", "-C", ProjectRoot, "worktree", "add", "-b", "qa/" ++ orchT1.TaskSpecID,
          ProjectRoot ++ "/../worktrees/qa-" ++ orchT1.TaskSpecID, TrimSpace out]) ∧
    (Event.runOutput ["git", "-C", orchT1.FactoryWorktree, "branch", "--show-current"]
        "factory/T1\n" none ∈ (PrepareQA (worldOk 2) orchT1 []).since [] ∧
      ∃ r, Event.run ["git", "-C", ProjectRoot, "worktree", "add", "-b",
        "qa/" ++ orchT1.TaskSpecID, ProjectRoot ++ "/../worktrees/qa-" ++ orchT1.TaskSpecID,
        TrimSpace "factory/T1\n"] r ∈ (PrepareQA (worldOk 2) orchT1 []).since []) ∧
    (Event.runOutput ["git", "-C", orchT1.FactoryWorktree, "branch", "--show-current"]
        "" (some "exit status 128") ∈ (PrepareQA worldBranchFails orchT1 []).since [] ∧
      (PrepareQA worldBranchFails orchT1 []).err = some "exit status 128" ∧
      ∀ argv r, Event.run argv r ∉ (PrepareQA worldBranchFails orchT1 []).since []) :=
  ⟨⟨by decide, by decide,
      (C10_review_copy_base (worldOk 2) orchT1 []).1 _ none (by decide) (by decide)⟩,
    ⟨by decide, (C10_review_copy_base (worldOk 2) orchT1 []).2.1 "factory/T1\n" (by decide)⟩,
    ⟨by decide,
      (C10_review_copy_base worldBranchFails orchT1 []).2.2 "" "exit status 128"
        (by decide)⟩⟩

end TaskspecOrchestrator
